import Mathlib

/-!
Verification of the cf repository: a shallow embedding, in Lean 4, of the
game-logic kernels of the Rust sources (ray/AABB intersection, the
block-click handler, the fox action buttons, camera systems, the weather
system, and the camera-settings persistence code), together with theorems
settling the specification claims about them.

Modelling conventions:
* Rust `f32` arithmetic is modelled by exact arithmetic: `ℚ` for the pure
  game-logic code, and `ℝ` for the camera code, whose source uses
  trigonometric functions.  No claim under verification depends on
  floating-point rounding.
* Bevy ECS queries are modelled by explicit lists and association lists
  passed in and out of each system; `Entity` is a natural number.
* `Query::single()` / `single_mut()` successes are modelled with `Option`
  values (`none` = the query did not match exactly one entity).
-/

/-- 3-component vector, mirroring `glam::Vec3` (component type abstracted:
`ℚ` for the game-logic systems, `ℝ` for the camera systems). -/
structure Vec3 (α : Type) where
  x : α
  y : α
  z : α
deriving DecidableEq, Repr

namespace Vec3

variable {α : Type}

/-- Componentwise addition (`Vec3 + Vec3`). -/
def add [Add α] (a b : Vec3 α) : Vec3 α := ⟨a.x + b.x, a.y + b.y, a.z + b.z⟩

/-- Componentwise subtraction (`Vec3 - Vec3`). -/
def sub [Sub α] (a b : Vec3 α) : Vec3 α := ⟨a.x - b.x, a.y - b.y, a.z - b.z⟩

/-- Componentwise multiplication (`Vec3 * Vec3`). -/
def mulv [Mul α] (a b : Vec3 α) : Vec3 α := ⟨a.x * b.x, a.y * b.y, a.z * b.z⟩

/-- Componentwise division (`Vec3 / Vec3`). -/
def divv [Div α] (a b : Vec3 α) : Vec3 α := ⟨a.x / b.x, a.y / b.y, a.z / b.z⟩

/-- Scalar multiplication on the right (`Vec3 * f32`). -/
def smul [Mul α] (a : Vec3 α) (k : α) : Vec3 α := ⟨a.x * k, a.y * k, a.z * k⟩

/-- `Vec3::ONE`. -/
def one [One α] : Vec3 α := ⟨1, 1, 1⟩

/-- `Vec3::ZERO`. -/
def zero [Zero α] : Vec3 α := ⟨0, 0, 0⟩

/-- Componentwise minimum (`Vec3::min`). -/
def minv [Min α] (a b : Vec3 α) : Vec3 α := ⟨min a.x b.x, min a.y b.y, min a.z b.z⟩

/-- Componentwise maximum (`Vec3::max`). -/
def maxv [Max α] (a b : Vec3 α) : Vec3 α := ⟨max a.x b.x, max a.y b.y, max a.z b.z⟩

/-- `Vec3::max_element`. -/
def maxElement [Max α] (v : Vec3 α) : α := max v.x (max v.y v.z)

/-- `Vec3::min_element`. -/
def minElement [Min α] (v : Vec3 α) : α := min v.x (min v.y v.z)

/-- `Vec3::splat`. -/
def splat (k : α) : Vec3 α := ⟨k, k, k⟩

end Vec3

/-- `bevy::math::Ray3d`: an origin and a direction.  In bevy the direction
is a `Dir3` (unit-length); the unit-length constraint enters the theorems
as an explicit hypothesis where the claim needs it. -/
structure Ray3d where
  origin : Vec3 ℚ
  direction : Vec3 ℚ
deriving DecidableEq, Repr

/-- Field constant `BLOCK_SIZE`. -/
def BLOCK_SIZE : ℚ := 16

/-- Field constant `BLOCK_HALF_SIZE = BLOCK_SIZE / 2`. -/
def BLOCK_HALF_SIZE : ℚ := BLOCK_SIZE / 2

/-- Constant `FOX_HALF_SIZE`. -/
def FOX_HALF_SIZE : ℚ := 5

/-- Constant `FOX_INITIAL_HEIGHT`. -/
def FOX_INITIAL_HEIGHT : ℚ := 8

/-- Embedding of `ray_box_intersection` from `src/cf_systems/game_logic.rs`
(ll. 23-40; the copy in `src/main.rs` ll. 1213-1230 is identical).
The slab method: componentwise entry/exit parameters, then the latest entry
and earliest exit.  `Vec3::ONE / ray_dir` is componentwise division; the
correctness theorems assume every direction component is nonzero, the case
in which exact division agrees with the `f32` computation. -/
def ray_box_intersection (ray : Ray3d) (box_center half_extents : Vec3 ℚ) : Option ℚ :=
  let bmin := box_center.sub half_extents
  let bmax := box_center.add half_extents
  let ray_dir := ray.direction
  let inv_dir := (Vec3.one).divv ray_dir
  let t_min := (bmin.sub ray.origin).mulv inv_dir
  let t_max := (bmax.sub ray.origin).mulv inv_dir
  let t_enter := (t_min.minv t_max).maxElement
  let t_exit := (t_min.maxv t_max).minElement
  if t_enter ≤ t_exit ∧ 0 ≤ t_exit then some (max t_enter 0) else none

/-- The point `ray.origin + *ray.direction * s`. -/
def pointAt (r : Ray3d) (s : ℚ) : Vec3 ℚ := r.origin.add (r.direction.smul s)

/-- Specification predicate: `p` lies in the closed axis-aligned box
`[bmin, bmax]`. -/
def inBox (p bmin bmax : Vec3 ℚ) : Prop :=
  bmin.x ≤ p.x ∧ p.x ≤ bmax.x ∧ bmin.y ≤ p.y ∧ p.y ≤ bmax.y ∧
    bmin.z ≤ p.z ∧ p.z ≤ bmax.z

instance (p bmin bmax : Vec3 ℚ) : Decidable (inBox p bmin bmax) := by
  unfold inBox; infer_instance

/-- Squared distance between two points (the claim relates the returned
parameter to the distance from the origin; with a unit direction the two
coincide, which squared distances state without square roots). -/
def distSq (p q : Vec3 ℚ) : ℚ :=
  (p.x - q.x) ^ 2 + (p.y - q.y) ^ 2 + (p.z - q.z) ^ 2

section SlabLemmas

private lemma aux_pos (o d a s : ℚ) (hd : 0 < d) :
    a ≤ o + d * s ↔ (a - o) * (1 / d) ≤ s := by
  rw [mul_one_div, div_le_iff₀ hd]
  have h : s * d = d * s := mul_comm s d
  constructor <;> intro hh <;> linarith

private lemma aux_pos' (o d b s : ℚ) (hd : 0 < d) :
    o + d * s ≤ b ↔ s ≤ (b - o) * (1 / d) := by
  rw [mul_one_div, le_div_iff₀ hd]
  have h : s * d = d * s := mul_comm s d
  constructor <;> intro hh <;> linarith

private lemma aux_neg (o d a s : ℚ) (hd : d < 0) :
    a ≤ o + d * s ↔ s ≤ (a - o) * (1 / d) := by
  rw [mul_one_div, le_div_iff_of_neg hd]
  have h : s * d = d * s := mul_comm s d
  constructor <;> intro hh <;> linarith

private lemma aux_neg' (o d b s : ℚ) (hd : d < 0) :
    o + d * s ≤ b ↔ (b - o) * (1 / d) ≤ s := by
  rw [mul_one_div, div_le_iff_of_neg hd]
  have h : s * d = d * s := mul_comm s d
  constructor <;> intro hh <;> linarith

/-- One axis of the slab method: for a nonzero direction component the
point is between the two slab planes exactly when the parameter is between
the two slab parameters. -/
private lemma slab (o d a b s : ℚ) (hd : d ≠ 0) (hab : a ≤ b) :
    (a ≤ o + d * s ∧ o + d * s ≤ b) ↔
      (min ((a - o) * (1 / d)) ((b - o) * (1 / d)) ≤ s ∧
        s ≤ max ((a - o) * (1 / d)) ((b - o) * (1 / d))) := by
  rcases hd.lt_or_lt with hneg | hpos
  · have hle : (b - o) * (1 / d) ≤ (a - o) * (1 / d) := by
      apply mul_le_mul_of_nonpos_right (by linarith)
      exact le_of_lt (one_div_neg.mpr hneg)
    rw [min_eq_right hle, max_eq_left hle, aux_neg o d a s hneg,
      aux_neg' o d b s hneg, and_comm]
  · have hle : (a - o) * (1 / d) ≤ (b - o) * (1 / d) := by
      apply mul_le_mul_of_nonneg_right (by linarith)
      positivity
    rw [min_eq_left hle, max_eq_right hle, aux_pos o d a s hpos,
      aux_pos' o d b s hpos]

end SlabLemmas

/-- C1.  `ray_box_intersection` is correct: with nonzero direction
components and nonnegative half-extents, it returns `some t` exactly when
some point `origin + s * direction` with `s ≥ 0` lies in the box, and then
`t` is the least such parameter (`t = 0` when the origin is already
inside); with a unit direction `t` is the distance from the origin to the
first intersection point (stated via squared distances).  It returns
`none` exactly when the ray misses the box. -/
theorem ray_box_intersection_correct (r : Ray3d) (c h : Vec3 ℚ)
    (hdx : r.direction.x ≠ 0) (hdy : r.direction.y ≠ 0) (hdz : r.direction.z ≠ 0)
    (hhx : 0 ≤ h.x) (hhy : 0 ≤ h.y) (hhz : 0 ≤ h.z) :
    (∀ t, ray_box_intersection r c h = some t →
      0 ≤ t ∧ inBox (pointAt r t) (c.sub h) (c.add h) ∧
      (∀ s, 0 ≤ s → inBox (pointAt r s) (c.sub h) (c.add h) → t ≤ s) ∧
      (inBox r.origin (c.sub h) (c.add h) → t = 0) ∧
      (r.direction.x ^ 2 + r.direction.y ^ 2 + r.direction.z ^ 2 = 1 →
        distSq (pointAt r t) r.origin = t ^ 2)) ∧
    (ray_box_intersection r c h = none →
      ∀ s, 0 ≤ s → ¬ inBox (pointAt r s) (c.sub h) (c.add h)) := by
  obtain ⟨⟨ox, oy, oz⟩, ⟨dx, dy, dz⟩⟩ := r
  obtain ⟨cx, cy, cz⟩ := c
  obtain ⟨hx, hy, hz⟩ := h
  simp only at hdx hdy hdz hhx hhy hhz
  -- slab parameters per axis
  set lox := min ((cx - hx - ox) * (1 / dx)) ((cx + hx - ox) * (1 / dx)) with hlox
  set hix := max ((cx - hx - ox) * (1 / dx)) ((cx + hx - ox) * (1 / dx)) with hhix
  set loy := min ((cy - hy - oy) * (1 / dy)) ((cy + hy - oy) * (1 / dy)) with hloy
  set hiy := max ((cy - hy - oy) * (1 / dy)) ((cy + hy - oy) * (1 / dy)) with hhiy
  set loz := min ((cz - hz - oz) * (1 / dz)) ((cz + hz - oz) * (1 / dz)) with hloz
  set hiz := max ((cz - hz - oz) * (1 / dz)) ((cz + hz - oz) * (1 / dz)) with hhiz
  set tE := max lox (max loy loz) with htE
  set tX := min hix (min hiy hiz) with htX
  have hmem : ∀ s : ℚ,
      inBox (pointAt ⟨⟨ox, oy, oz⟩, ⟨dx, dy, dz⟩⟩ s)
        ((Vec3.mk cx cy cz).sub ⟨hx, hy, hz⟩) ((Vec3.mk cx cy cz).add ⟨hx, hy, hz⟩) ↔
        (tE ≤ s ∧ s ≤ tX) := by
    intro s
    have h1 := slab ox dx (cx - hx) (cx + hx) s hdx (by linarith)
    have h2 := slab oy dy (cy - hy) (cy + hy) s hdy (by linarith)
    have h3 := slab oz dz (cz - hz) (cz + hz) s hdz (by linarith)
    simp only [inBox, pointAt, Vec3.sub, Vec3.add, Vec3.smul]
    rw [htE, htX, max_le_iff, max_le_iff, le_min_iff, le_min_iff]
    rw [← hlox, ← hhix] at h1
    rw [← hloy, ← hhiy] at h2
    rw [← hloz, ← hhiz] at h3
    constructor
    · rintro ⟨p1, p2, p3, p4, p5, p6⟩
      obtain ⟨e1, x1⟩ := h1.mp ⟨p1, p2⟩
      obtain ⟨e2, x2⟩ := h2.mp ⟨p3, p4⟩
      obtain ⟨e3, x3⟩ := h3.mp ⟨p5, p6⟩
      exact ⟨⟨e1, e2, e3⟩, x1, x2, x3⟩
    · rintro ⟨⟨e1, e2, e3⟩, x1, x2, x3⟩
      obtain ⟨p1, p2⟩ := h1.mpr ⟨e1, x1⟩
      obtain ⟨p3, p4⟩ := h2.mpr ⟨e2, x2⟩
      obtain ⟨p5, p6⟩ := h3.mpr ⟨e3, x3⟩
      exact ⟨p1, p2, p3, p4, p5, p6⟩
  have hrbi : ray_box_intersection ⟨⟨ox, oy, oz⟩, ⟨dx, dy, dz⟩⟩ ⟨cx, cy, cz⟩ ⟨hx, hy, hz⟩ =
      if tE ≤ tX ∧ 0 ≤ tX then some (max tE 0) else none := by
    simp only [ray_box_intersection, Vec3.sub, Vec3.add, Vec3.mulv, Vec3.divv,
      Vec3.one, Vec3.minv, Vec3.maxv, Vec3.maxElement, Vec3.minElement, htE, htX,
      hlox, hhix, hloy, hhiy, hloz, hhiz, mul_one_div, one_div]
  have hdist : ∀ t : ℚ, dx ^ 2 + dy ^ 2 + dz ^ 2 = 1 →
      distSq (pointAt ⟨⟨ox, oy, oz⟩, ⟨dx, dy, dz⟩⟩ t) ⟨ox, oy, oz⟩ = t ^ 2 := by
    intro t hunit
    simp only [distSq, pointAt, Vec3.add, Vec3.smul]
    nlinarith [hunit]
  by_cases hguard : tE ≤ tX ∧ 0 ≤ tX
  · rw [hrbi, if_pos hguard]
    refine ⟨?_, by intro hcon; cases hcon⟩
    intro t ht
    have htval : t = max tE 0 := by
      injection ht with ht0
      exact ht0.symm
    subst htval
    refine ⟨le_max_right _ _, ?_, ?_, ?_, hdist _⟩
    · exact (hmem _).mpr ⟨le_max_left _ _, max_le hguard.1 hguard.2⟩
    · intro s hs hsin
      exact max_le ((hmem s).mp hsin).1 hs
    · intro hoin
      have ho : inBox (pointAt ⟨⟨ox, oy, oz⟩, ⟨dx, dy, dz⟩⟩ 0)
          ((Vec3.mk cx cy cz).sub ⟨hx, hy, hz⟩) ((Vec3.mk cx cy cz).add ⟨hx, hy, hz⟩) := by
        simpa only [pointAt, Vec3.add, Vec3.smul, mul_zero, add_zero] using hoin
      exact max_eq_right ((hmem 0).mp ho).1
  · rw [hrbi, if_neg hguard]
    refine ⟨?_, ?_⟩
    · intro t hcon
      cases hcon
    · intro _ s hs hsin
      obtain ⟨hE, hX⟩ := (hmem s).mp hsin
      exact hguard ⟨le_trans hE hX, le_trans hs hX⟩

/-- Witness for C1: a concrete ray with all direction components nonzero
hitting the block-sized box centred at the origin; the first hit is at
parameter 12 and lies in the box. -/
theorem ray_box_intersection_correct_witness :
    ray_box_intersection ⟨⟨20, 20, 20⟩, ⟨-1, -1, -1⟩⟩ ⟨0, 0, 0⟩ ⟨8, 8, 8⟩ = some 12 ∧
      (0 ≤ (12 : ℚ) ∧
        inBox (pointAt ⟨⟨20, 20, 20⟩, ⟨-1, -1, -1⟩⟩ 12)
          ((Vec3.mk (0:ℚ) 0 0).sub ⟨8, 8, 8⟩) ((Vec3.mk (0:ℚ) 0 0).add ⟨8, 8, 8⟩)) := by
  have heval : ray_box_intersection ⟨⟨20, 20, 20⟩, ⟨-1, -1, -1⟩⟩ ⟨0, 0, 0⟩ ⟨8, 8, 8⟩ =
      some 12 := by
    norm_num [ray_box_intersection, Vec3.sub, Vec3.add, Vec3.mulv, Vec3.divv, Vec3.one,
      Vec3.minv, Vec3.maxv, Vec3.maxElement, Vec3.minElement, min_def, max_def]
  have hmain := (ray_box_intersection_correct ⟨⟨20, 20, 20⟩, ⟨-1, -1, -1⟩⟩ ⟨0, 0, 0⟩ ⟨8, 8, 8⟩
    (by norm_num) (by norm_num) (by norm_num) (by norm_num) (by norm_num)
    (by norm_num)).1 12 heval
  exact ⟨heval, hmain.1, hmain.2.1⟩

/-! ## ECS model: components and resources used by the click handler -/

/-- A Bevy `Entity`, modelled by an identifier. -/
abbrev Entity := Nat

/-- `cf_tool::timer::Timer` component (`src/cf_tool/timer.rs`). -/
structure Timer where
  time : ℚ
  name : String
deriving DecidableEq, Repr

/-- `ItemType` (`src/components.rs`). -/
inductive ItemType where
  | fox
deriving DecidableEq, Repr

/-- `ItemSlot` component (`src/components.rs`). -/
structure ItemSlot where
  slot_index : Nat
  item : Option ItemType
deriving DecidableEq, Repr

/-- `FoxMoveMode` resource (`src/resources.rs`). -/
structure FoxMoveMode where
  is_active : Bool
  is_holding : Bool
  fox_entity : Option Entity
deriving DecidableEq, Repr

/-- `SelectedItemSlot` resource (`src/resources.rs`). -/
structure SelectedItemSlot where
  slot_index : Option Nat
  item_type : Option ItemType
deriving DecidableEq, Repr

/-- Look up the component attached to an entity in an association-list
query (first match, as entities are unique in an ECS world). -/
def assocFind {β : Type} (l : List (Entity × β)) (e : Entity) : Option β :=
  (l.find? (fun p => p.1 = e)).map Prod.snd

/-- Replace the component attached to `e` (first match) by `b`. -/
def assocSet {β : Type} (l : List (Entity × β)) (e : Entity) (b : β) :
    List (Entity × β) :=
  match l with
  | [] => []
  | p :: rest => if p.1 = e then (e, b) :: rest else p :: assocSet rest e b

/-- The inputs `block_click_handler` receives from the engine in one frame:
mouse state, UI-button interaction state, and the cursor ray
(`none` models a missing primary window, a cursor outside the window, a
missing camera, or a failing `viewport_to_world`, each of which makes the
source return early with no state change). -/
structure ClickInput where
  left_just_pressed : Bool
  ui_button_pressed : Bool
  cursor_ray : Option Ray3d
  can_project : Bool
deriving DecidableEq, Repr

/-- The pieces of the ECS world `block_click_handler` reads and writes:
every queried component set, the feedback text, and the two resources.
`action_menu_open` models whether any `FoxActionMenu` entity exists;
`visibilities` models the `Visibility` component (`true` = visible). -/
structure ClickWorld where
  blocks : List (Entity × Vec3 ℚ)
  selectable : List Entity
  foxes : List (Entity × Vec3 ℚ)
  timers : List (Entity × Timer)
  fox_transforms : List (Entity × Vec3 ℚ)
  visibilities : List (Entity × Bool)
  feedback : String
  action_menu_open : Bool
  move_mode : FoxMoveMode
  selected_slot : SelectedItemSlot
  item_slots : List ItemSlot
deriving DecidableEq, Repr

/-- The four mutable locals of the raycast scan in `block_click_handler`:
`closest_entity`, `closest_distance` (`none` models the `f32::MAX`
sentinel, below every computed distance), `is_fox`, `fox_position`. -/
structure HitScan where
  closest_entity : Option Entity
  closest_distance : Option ℚ
  is_fox : Bool
  fox_position : Option (Vec3 ℚ)
deriving DecidableEq, Repr

/-- `distance < closest_distance` against the `f32::MAX` sentinel. -/
def distLT (d : ℚ) : Option ℚ → Bool
  | none => true
  | some b => d < b

/-- One iteration of the block loop in `block_click_handler`
(ll. 255-268 of `game_logic.rs`): skip non-selectable blocks, intersect,
keep the strictly closer hit. -/
def blockScanStep (ray : Ray3d) (selectable : List Entity) (st : HitScan)
    (eb : Entity × Vec3 ℚ) : HitScan :=
  if ¬ selectable.contains eb.1 then st
  else
    match ray_box_intersection ray eb.2 (Vec3.splat BLOCK_HALF_SIZE) with
    | some d =>
        if distLT d st.closest_distance then
          { st with closest_entity := some eb.1, closest_distance := some d }
        else st
    | none => st

/-- One iteration of the fox loop (ll. 271-282): intersect against the fox
box; a closer hit records the fox and its position. -/
def foxScanStep (ray : Ray3d) (st : HitScan) (ef : Entity × Vec3 ℚ) : HitScan :=
  match ray_box_intersection ray ef.2 (Vec3.splat FOX_HALF_SIZE) with
  | some d =>
      if distLT d st.closest_distance then
        { st with closest_entity := some ef.1, closest_distance := some d,
                  is_fox := true, fox_position := some ef.2 }
      else st
  | none => st

/-- The whole raycast scan of `block_click_handler`: all blocks, then the
foxes, the latter only outside move mode and with no item selected. -/
def clickScan (ray : Ray3d) (w : ClickWorld) : HitScan :=
  let st1 := w.blocks.foldl (blockScanStep ray w.selectable)
    ⟨none, none, false, none⟩
  if ¬ w.move_mode.is_active ∧ w.selected_slot.item_type = none then
    w.foxes.foldl (foxScanStep ray) st1
  else st1

/-- Clear the item of the first slot with the given index
(the `for ... break` loop at ll. 290-295). -/
def clearSlotFirst (idx : Nat) : List ItemSlot → List ItemSlot
  | [] => []
  | s :: rest =>
      if s.slot_index = idx then { s with item := none } :: rest
      else s :: clearSlotFirst idx rest

/-- Reset the `time` of the first timer attached to `e` (the
`timer_query.get_mut` + `timer.time = 0.0` at ll. 357-358). -/
def resetTimerFirst (e : Entity) : List (Entity × Timer) → List (Entity × Timer)
  | [] => []
  | p :: rest =>
      if p.1 = e then (p.1, { p.2 with time := 0 }) :: rest
      else p :: resetTimerFirst e rest

/-- The item-placement branch of `block_click_handler` (ll. 286-319): with
an item selected (and the hit not the fox), clear the originating slot,
and for `ItemType::Fox` teleport the unique fox onto the clicked block and
make it visible; then clear the selection.  Returns `none` when the branch
is not taken. -/
def itemPlaceBranch (w : ClickWorld) (st : HitScan) (clicked : Entity) :
    Option ClickWorld :=
  match w.selected_slot.item_type with
  | none => none
  | some item_type =>
      if st.is_fox then none
      else
        match w.selected_slot.slot_index with
        | none => none
        | some slot_idx =>
            let w1 := { w with item_slots := clearSlotFirst slot_idx w.item_slots }
            let w2 :=
              match item_type with
              | ItemType.fox =>
                  match w1.foxes with
                  | [(fox_entity, _)] =>
                      match assocFind w1.fox_transforms fox_entity with
                      | some _ =>
                          let w3 :=
                            match assocFind w1.blocks clicked with
                            | some block_pos =>
                                { w1 with fox_transforms :=
                                    (assocSet w1.fox_transforms fox_entity
                                      ⟨block_pos.x, FOX_INITIAL_HEIGHT, block_pos.z⟩) }
                            | none => w1
                          let w4 := { w3 with visibilities :=
                            (assocSet w3.visibilities fox_entity true) }
                          { w4 with feedback := "アイテムを設置しました！" }
                      | none => w1
                  | _ => w1
            some { w2 with selected_slot := ⟨none, none⟩ }

/-- The move-mode placement branch (ll. 321-340): teleport the held fox
onto the clicked block, write the placed message, and clear the whole
move mode. -/
def moveModePlaceBranch (w : ClickWorld) (clicked : Entity) : ClickWorld :=
  let w1 :=
    match w.move_mode.fox_entity with
    | some fox_entity =>
        match assocFind w.fox_transforms fox_entity with
        | some _ =>
            let w2 :=
              match assocFind w.blocks clicked with
              | some block_pos =>
                  { w with fox_transforms :=
                      (assocSet w.fox_transforms fox_entity
                        ⟨block_pos.x, FOX_INITIAL_HEIGHT, block_pos.z⟩) }
              | none => w
            { w2 with feedback := "キツネを設置しました！" }
        | none => w
    | none => w
  { w1 with move_mode := ⟨false, false, none⟩ }

/-- The action-menu step (ll. 342-354): clicking the fox outside move mode
(re)spawns the action menu at the fox (when `world_to_viewport` succeeds);
clicking anything else outside move mode closes it. -/
def actionMenuStep (w : ClickWorld) (st : HitScan) (can_project : Bool) :
    ClickWorld :=
  if st.is_fox ∧ ¬ w.move_mode.is_active then
    { w with action_menu_open :=
        match st.fox_position with
        | some _ => can_project
        | none => false }
  else if ¬ st.is_fox ∧ ¬ w.move_mode.is_active then
    { w with action_menu_open := false }
  else w

/-- The timer-reset step (ll. 356-365): outside move mode, reset the
clicked entity's timer and report it, or clear the feedback when the
clicked entity has no timer. -/
def timerResetStep (w : ClickWorld) (clicked : Entity) : ClickWorld :=
  if ¬ w.move_mode.is_active then
    match assocFind w.timers clicked with
    | some tm =>
        { w with timers := resetTimerFirst clicked w.timers,
                 feedback := tm.name ++ " clicked! Timer reset!" }
    | none => { w with feedback := "" }
  else w

/-- The branch of `block_click_handler` taken when the scan hit something
(ll. 285-365), in source order: item placement, move-mode placement
(each ending with an early `return`), then menu handling and timer reset. -/
def clickHitCase (w : ClickWorld) (st : HitScan) (clicked : Entity)
    (can_project : Bool) : ClickWorld :=
  match itemPlaceBranch w st clicked with
  | some w1 => w1
  | none =>
      if w.move_mode.is_active ∧ w.move_mode.is_holding ∧ ¬ st.is_fox then
        moveModePlaceBranch w clicked
      else
        timerResetStep (actionMenuStep w st can_project) clicked

/-- The branch taken when the scan hit nothing (ll. 366-378): holding the
fox in move mode writes the blocks-only error; otherwise the action menu
closes and a pending item selection is dropped. -/
def clickMissCase (w : ClickWorld) : ClickWorld :=
  if w.move_mode.is_active ∧ w.move_mode.is_holding then
    { w with feedback := "選択可能なブロックにのみ設置できます！" }
  else
    let w1 := { w with action_menu_open := false }
    if w.selected_slot.item_type.isSome then
      { w1 with selected_slot := ⟨none, none⟩ }
    else w1

/-- Embedding of `block_click_handler` from
`src/cf_systems/game_logic.rs` ll. 207-379 (the copy in `src/main.rs`
ll. 862-… differs only in not having the Possession button elsewhere):
on a fresh left click that did not land on a UI button, cast the cursor
ray, find the closest selectable block (and, outside move mode with no
pending item selection, the fox), and dispatch to the placement, menu,
and timer branches. -/
def block_click_handler (inp : ClickInput) (w : ClickWorld) : ClickWorld :=
  if ¬ inp.left_just_pressed then w
  else if inp.ui_button_pressed then w
  else
    match inp.cursor_ray with
    | none => w
    | some ray =>
        let st := clickScan ray w
        match st.closest_entity with
        | some clicked => clickHitCase w st clicked inp.can_project
        | none => clickMissCase w

/-! ## C2: clicking and timer reset -/

/-- The action-menu step touches only `action_menu_open`. -/
lemma actionMenuStep_preserves (w : ClickWorld) (st : HitScan) (cp : Bool) :
    (actionMenuStep w st cp).timers = w.timers ∧
    (actionMenuStep w st cp).move_mode = w.move_mode ∧
    (actionMenuStep w st cp).feedback = w.feedback ∧
    (actionMenuStep w st cp).fox_transforms = w.fox_transforms := by
  unfold actionMenuStep
  split_ifs <;> exact ⟨rfl, rfl, rfl, rfl⟩

/-- Resetting the first timer of `e` yields a timer list in which `e` now
carries the same name with `time = 0`. -/
lemma assocFind_resetTimerFirst (l : List (Entity × Timer)) (e : Entity)
    (tm : Timer) (h : assocFind l e = some tm) :
    assocFind (resetTimerFirst e l) e = some ⟨0, tm.name⟩ := by
  induction l with
  | nil => simp [assocFind] at h
  | cons p rest ih =>
      by_cases hp : p.1 = e
      · simp [assocFind, List.find?, hp] at h
        simp [resetTimerFirst, hp, assocFind, List.find?, h]
      · rw [show assocFind (p :: rest) e = assocFind rest e by
            simp [assocFind, List.find?, hp]] at h
        rw [show resetTimerFirst e (p :: rest) = p :: resetTimerFirst e rest by
            simp [resetTimerFirst, hp]]
        rw [show assocFind (p :: resetTimerFirst e rest) e
            = assocFind (resetTimerFirst e rest) e by
            simp [assocFind, List.find?, hp]]
        exact ih h

/-- The block loop never sets `is_fox`. -/
lemma blockScan_is_fox (ray : Ray3d) (sel : List Entity)
    (l : List (Entity × Vec3 ℚ)) (st : HitScan) :
    (l.foldl (blockScanStep ray sel) st).is_fox = st.is_fox := by
  induction l generalizing st with
  | nil => rfl
  | cons p rest ih =>
      rw [List.foldl_cons, ih]
      unfold blockScanStep
      split_ifs <;> try rfl
      rcases hx : ray_box_intersection ray p.2 (Vec3.splat BLOCK_HALF_SIZE) with _ | d
      · rfl
      · simp only []
        split_ifs <;> rfl

/-- During move mode the fox loop is skipped, so a hit is never the fox. -/
lemma clickScan_is_fox_of_active (ray : Ray3d) (w : ClickWorld)
    (hactive : w.move_mode.is_active = true) :
    (clickScan ray w).is_fox = false := by
  unfold clickScan
  rw [if_neg]
  · exact blockScan_is_fox ray w.selectable w.blocks _
  · rw [hactive]
    simp

/-- Common reduction: on a fresh non-UI left click whose scan hit
`clicked`, the handler runs the hit case. -/
lemma block_click_handler_hit (inp : ClickInput) (w : ClickWorld) (ray : Ray3d)
    (clicked : Entity)
    (hlp : inp.left_just_pressed = true)
    (hui : inp.ui_button_pressed = false)
    (hray : inp.cursor_ray = some ray)
    (hscan : (clickScan ray w).closest_entity = some clicked) :
    block_click_handler inp w = clickHitCase w (clickScan ray w) clicked inp.can_project := by
  unfold block_click_handler
  rw [hlp, hui, hray]
  simp [hscan]

/-- C2 (amended).  On a left click outside move mode with no pending
item-slot selection, whose cursor-ray scan hit `clicked`: if `clicked`
carries a `Timer`, its `time` is reset to `0.0` and the feedback reports
`"<name> clicked! Timer reset!"`; if it carries none (true of every block
in this game — only the fox has a `Timer`), the feedback is cleared. -/
theorem block_click_timer_reset
    (inp : ClickInput) (w : ClickWorld) (ray : Ray3d) (clicked : Entity)
    (hlp : inp.left_just_pressed = true)
    (hui : inp.ui_button_pressed = false)
    (hray : inp.cursor_ray = some ray)
    (hmove : w.move_mode.is_active = false)
    (hsel : w.selected_slot.item_type = none)
    (hscan : (clickScan ray w).closest_entity = some clicked) :
    (∀ tm : Timer, assocFind w.timers clicked = some tm →
        (block_click_handler inp w).timers = resetTimerFirst clicked w.timers ∧
        assocFind (block_click_handler inp w).timers clicked = some ⟨0, tm.name⟩ ∧
        (block_click_handler inp w).feedback = tm.name ++ " clicked! Timer reset!") ∧
    (assocFind w.timers clicked = none →
        (block_click_handler inp w).timers = w.timers ∧
        (block_click_handler inp w).feedback = "") := by
  have hred := block_click_handler_hit inp w ray clicked hlp hui hray hscan
  have hhit : clickHitCase w (clickScan ray w) clicked inp.can_project
      = timerResetStep (actionMenuStep w (clickScan ray w) inp.can_project) clicked := by
    unfold clickHitCase
    have hbr : itemPlaceBranch w (clickScan ray w) clicked = none := by
      unfold itemPlaceBranch
      rw [hsel]
    rw [hbr]
    rw [if_neg (by rw [hmove]; simp)]
  rw [hhit] at hred
  obtain ⟨hpt, hpm, hpf, _⟩ :=
    actionMenuStep_preserves w (clickScan ray w) inp.can_project
  constructor
  · intro tm htm
    rw [hred]
    unfold timerResetStep
    rw [if_pos (by rw [hpm, hmove]; simp), hpt, htm]
    exact ⟨rfl, assocFind_resetTimerFirst w.timers clicked tm htm, rfl⟩
  · intro htm
    rw [hred]
    unfold timerResetStep
    rw [if_pos (by rw [hpm, hmove]; simp), hpt, htm]
    exact ⟨rfl, rfl⟩

/-- The ray of the concrete C2/C5 scenarios: origin `(20, 20, 20)`,
direction `(-1, -1, -1)`, whose first hit is block `1` at the origin. -/
def c2ray : Ray3d := ⟨⟨20, 20, 20⟩, ⟨-1, -1, -1⟩⟩

/-- Concrete world refuting C2 as stated: move mode inactive, the
selectable block `1` carries a timer, but slot 0's fox item is selected
(`SelectedItemSlot`), so the click takes the item-placement branch. -/
def c2world : ClickWorld :=
  { blocks := [(1, ⟨0, 0, 0⟩)]
    selectable := [1]
    foxes := []
    timers := [(1, ⟨5, "Block"⟩)]
    fox_transforms := []
    visibilities := []
    feedback := ""
    action_menu_open := false
    move_mode := ⟨false, false, none⟩
    selected_slot := ⟨some 0, some ItemType.fox⟩
    item_slots := [⟨0, some ItemType.fox⟩] }

/-- The click input of the concrete C2/C5 scenarios. -/
def c2input : ClickInput := ⟨true, false, some c2ray, true⟩

set_option maxHeartbeats 1000000 in
/-- The scan of the concrete C2 scenario resolves to block `1`,
hit at parameter 12, not the fox. -/
lemma c2scan_eval : clickScan c2ray c2world = ⟨some 1, some 12, false, none⟩ := by
  unfold clickScan
  rw [if_neg (by simp [c2world])]
  norm_num [blockScanStep, distLT, ray_box_intersection,
    Vec3.sub, Vec3.add, Vec3.mulv, Vec3.divv, Vec3.one, Vec3.splat, Vec3.minv,
    Vec3.maxv, Vec3.maxElement, Vec3.minElement, min_def, max_def, List.foldl,
    List.contains, c2world, c2ray, BLOCK_HALF_SIZE, BLOCK_SIZE]

/-- Counterexample to C2 as stated: a left click outside move mode whose
closest hit is the selectable block `1`, which carries a `Timer` with
`time = 5`; because an item-slot selection is pending, the handler takes
the item-placement branch instead: the timer stays at `5` (not `0.0`) and
the feedback stays empty rather than reporting the reset. -/
theorem block_click_timer_reset_counterexample :
    c2world.move_mode.is_active = false ∧
    (clickScan c2ray c2world).closest_entity = some 1 ∧
    c2world.selectable.contains 1 = true ∧
    assocFind c2world.timers 1 = some ⟨5, "Block"⟩ ∧
    assocFind (block_click_handler c2input c2world).timers 1 = some ⟨5, "Block"⟩ ∧
    (5 : ℚ) ≠ 0 ∧
    (block_click_handler c2input c2world).feedback = "" := by
  have hscan : (clickScan c2ray c2world).closest_entity = some 1 := by
    rw [c2scan_eval]
  have hred := block_click_handler_hit c2input c2world c2ray 1 rfl rfl rfl hscan
  rw [c2scan_eval] at hred
  have hval : clickHitCase c2world ⟨some 1, some 12, false, none⟩ 1 c2input.can_project
      = { c2world with item_slots := [⟨0, none⟩], selected_slot := ⟨none, none⟩ } := by
    simp [clickHitCase, itemPlaceBranch, clearSlotFirst, c2world]
  rw [hval] at hred
  rw [hred]
  refine ⟨rfl, hscan, by decide, by decide, by decide, by norm_num, rfl⟩

/-- Witness world for the amended C2: as `c2world` but with no pending
item-slot selection. -/
def c2goodWorld : ClickWorld :=
  { c2world with selected_slot := ⟨none, none⟩ }

/-- Witness for the amended C2: with no pending selection the click
resets block `1`'s timer to `0` and reports it. -/
theorem block_click_timer_reset_witness :
    (block_click_handler c2input c2goodWorld).timers = [(1, ⟨0, "Block"⟩)] ∧
    (block_click_handler c2input c2goodWorld).feedback = "Block clicked! Timer reset!" := by
  have hscan : (clickScan c2ray c2goodWorld).closest_entity = some 1 := by
    unfold clickScan
    rw [if_pos (by simp [c2goodWorld, c2world])]
    norm_num [blockScanStep, distLT, ray_box_intersection,
      Vec3.sub, Vec3.add, Vec3.mulv, Vec3.divv, Vec3.one, Vec3.splat, Vec3.minv,
      Vec3.maxv, Vec3.maxElement, Vec3.minElement, min_def, max_def, List.foldl,
      List.contains, c2goodWorld, c2world, c2ray, BLOCK_HALF_SIZE, BLOCK_SIZE]
  have h := (block_click_timer_reset c2input c2goodWorld c2ray 1 rfl rfl rfl rfl rfl
    hscan).1 ⟨5, "Block"⟩ (by decide)
  refine ⟨?_, h.2.2⟩
  rw [h.1]
  decide

/-! ## C5: the move-mode placement state machine -/

/-- C5 (amended).  The move-mode half of `block_click_handler`, provided
no item-slot selection is pending: (a) holding the fox in move mode, a
click whose closest hit is a selectable block (never the fox: the fox
scan is skipped in move mode) teleports the fox to
`(block.x, FOX_INITIAL_HEIGHT, block.z)`, reports the placement, and
clears the whole mode; (b) a click that hits nothing writes only the
blocks-only error message, leaving the mode (and everything else)
untouched. -/
theorem block_click_move_mode_machine :
    (∀ (inp : ClickInput) (w : ClickWorld) (ray : Ray3d) (clicked fe : Entity)
        (bpos : Vec3 ℚ),
      inp.left_just_pressed = true →
      inp.ui_button_pressed = false →
      inp.cursor_ray = some ray →
      w.move_mode.is_active = true →
      w.move_mode.is_holding = true →
      w.move_mode.fox_entity = some fe →
      w.selected_slot.item_type = none →
      (clickScan ray w).closest_entity = some clicked →
      (assocFind w.fox_transforms fe).isSome = true →
      assocFind w.blocks clicked = some bpos →
        (block_click_handler inp w).fox_transforms
          = assocSet w.fox_transforms fe ⟨bpos.x, FOX_INITIAL_HEIGHT, bpos.z⟩ ∧
        (block_click_handler inp w).move_mode = ⟨false, false, none⟩ ∧
        (block_click_handler inp w).feedback = "キツネを設置しました！") ∧
    (∀ (inp : ClickInput) (w : ClickWorld) (ray : Ray3d),
      inp.left_just_pressed = true →
      inp.ui_button_pressed = false →
      inp.cursor_ray = some ray →
      w.move_mode.is_active = true →
      w.move_mode.is_holding = true →
      (clickScan ray w).closest_entity = none →
        block_click_handler inp w
          = { w with feedback := "選択可能なブロックにのみ設置できます！" }) := by
  constructor
  · intro inp w ray clicked fe bpos hlp hui hray hactive hhold hfe hsel hscan hft hblk
    have hred := block_click_handler_hit inp w ray clicked hlp hui hray hscan
    have hisfox := clickScan_is_fox_of_active ray w hactive
    have hhit : clickHitCase w (clickScan ray w) clicked inp.can_project
        = moveModePlaceBranch w clicked := by
      unfold clickHitCase
      have hbr : itemPlaceBranch w (clickScan ray w) clicked = none := by
        unfold itemPlaceBranch
        rw [hsel]
      rw [hbr]
      rw [if_pos (by rw [hactive, hhold, hisfox]; simp)]
    rw [hhit] at hred
    obtain ⟨ftr, hftr⟩ := Option.isSome_iff_exists.mp hft
    rw [hred]
    simp [moveModePlaceBranch, hfe, hftr, hblk]
  · intro inp w ray hlp hui hray hactive hhold hscan
    unfold block_click_handler
    rw [hlp, hui, hray]
    simp only [hscan]
    have : clickMissCase w = { w with feedback := "選択可能なブロックにのみ設置できます！" } := by
      unfold clickMissCase
      rw [if_pos (by rw [hactive, hhold]; simp)]
    simp [this]

/-- Concrete world refuting C5 as stated: move mode is active and holding
fox `7`, but slot 0's fox item is simultaneously selected, so the click on
selectable block `1` takes the item-placement branch and the move mode is
not cleared. -/
def c5badWorld : ClickWorld :=
  { blocks := [(1, ⟨0, 0, 0⟩)]
    selectable := [1]
    foxes := [(7, ⟨3, 8, 3⟩)]
    timers := []
    fox_transforms := [(7, ⟨3, 8, 3⟩)]
    visibilities := [(7, false)]
    feedback := ""
    action_menu_open := false
    move_mode := ⟨true, true, some 7⟩
    selected_slot := ⟨some 0, some ItemType.fox⟩
    item_slots := [⟨0, some ItemType.fox⟩] }

set_option maxHeartbeats 1000000 in
/-- The scan of the C5 counterexample world resolves to block `1`
(the fox scan is skipped: move mode is active). -/
lemma c5badScan_eval : clickScan c2ray c5badWorld = ⟨some 1, some 12, false, none⟩ := by
  unfold clickScan
  rw [if_neg (by simp [c5badWorld])]
  norm_num [blockScanStep, distLT, ray_box_intersection,
    Vec3.sub, Vec3.add, Vec3.mulv, Vec3.divv, Vec3.one, Vec3.splat, Vec3.minv,
    Vec3.maxv, Vec3.maxElement, Vec3.minElement, min_def, max_def, List.foldl,
    List.contains, c5badWorld, c2ray, BLOCK_HALF_SIZE, BLOCK_SIZE]

/-- Counterexample to C5 as stated: move mode active and holding, the
click's closest hit is the selectable block `1` (not the fox), yet the
mode is NOT cleared (`is_active` and `is_holding` stay `true`), because a
pending item-slot selection routes the click into the item-placement
branch. -/
theorem block_click_move_mode_counterexample :
    c5badWorld.move_mode.is_active = true ∧
    c5badWorld.move_mode.is_holding = true ∧
    (clickScan c2ray c5badWorld).closest_entity = some 1 ∧
    (clickScan c2ray c5badWorld).is_fox = false ∧
    (block_click_handler c2input c5badWorld).move_mode = ⟨true, true, some 7⟩ ∧
    (block_click_handler c2input c5badWorld).feedback = "アイテムを設置しました！" := by
  have hscan : (clickScan c2ray c5badWorld).closest_entity = some 1 := by
    rw [c5badScan_eval]
  have hred := block_click_handler_hit c2input c5badWorld c2ray 1 rfl rfl rfl hscan
  rw [c5badScan_eval] at hred
  have hval : clickHitCase c5badWorld ⟨some 1, some 12, false, none⟩ 1 c2input.can_project
      = { c5badWorld with
            item_slots := [⟨0, none⟩],
            fox_transforms := [(7, ⟨0, 8, 0⟩)],
            visibilities := [(7, true)],
            feedback := "アイテムを設置しました！",
            selected_slot := ⟨none, none⟩ } := by
    simp [clickHitCase, itemPlaceBranch, clearSlotFirst, assocFind, assocSet,
      List.find?, c5badWorld, FOX_INITIAL_HEIGHT]
  rw [hval] at hred
  rw [hred]
  exact ⟨rfl, rfl, hscan, by rw [c5badScan_eval], rfl, rfl⟩

/-- Witness world for the amended C5 part (a): as the counterexample world
but with no pending selection. -/
def c5goodWorld : ClickWorld :=
  { c5badWorld with selected_slot := ⟨none, none⟩ }

/-- Witness world for the amended C5 part (b): nothing is selectable, so
the scan misses. -/
def c5missWorld : ClickWorld :=
  { c5goodWorld with selectable := [] }

set_option maxHeartbeats 1000000 in
/-- The scan of the C5 witness world resolves to block `1`. -/
lemma c5goodScan_eval : clickScan c2ray c5goodWorld = ⟨some 1, some 12, false, none⟩ := by
  unfold clickScan
  rw [if_neg (by simp [c5goodWorld, c5badWorld])]
  norm_num [blockScanStep, distLT, ray_box_intersection,
    Vec3.sub, Vec3.add, Vec3.mulv, Vec3.divv, Vec3.one, Vec3.splat, Vec3.minv,
    Vec3.maxv, Vec3.maxElement, Vec3.minElement, min_def, max_def, List.foldl,
    List.contains, c5goodWorld, c5badWorld, c2ray, BLOCK_HALF_SIZE, BLOCK_SIZE]

set_option maxHeartbeats 1000000 in
/-- The scan of the C5 miss-witness world hits nothing. -/
lemma c5missScan_eval : clickScan c2ray c5missWorld = ⟨none, none, false, none⟩ := by
  unfold clickScan
  rw [if_neg (by simp [c5missWorld, c5goodWorld, c5badWorld])]
  norm_num [blockScanStep, distLT, List.foldl, List.contains,
    c5missWorld, c5goodWorld, c5badWorld]

/-- Witness for the amended C5: in the hit scenario the fox teleports to
the block and the mode clears; in the miss scenario only the error
message is written. -/
theorem block_click_move_mode_machine_witness :
    ((block_click_handler c2input c5goodWorld).fox_transforms = [(7, ⟨0, 8, 0⟩)] ∧
      (block_click_handler c2input c5goodWorld).move_mode = ⟨false, false, none⟩ ∧
      (block_click_handler c2input c5goodWorld).feedback = "キツネを設置しました！") ∧
    ((block_click_handler c2input c5missWorld).move_mode = ⟨true, true, some 7⟩ ∧
      (block_click_handler c2input c5missWorld).feedback
        = "選択可能なブロックにのみ設置できます！") := by
  constructor
  · have h := block_click_move_mode_machine.1 c2input c5goodWorld c2ray 1 7 ⟨0, 0, 0⟩
      rfl rfl rfl rfl rfl rfl rfl (by rw [c5goodScan_eval]) (by decide) (by decide)
    refine ⟨?_, h.2.1, h.2.2⟩
    rw [h.1]
    decide
  · have h := block_click_move_mode_machine.2 c2input c5missWorld c2ray
      rfl rfl rfl rfl rfl (by rw [c5missScan_eval])
    rw [h]
    exact ⟨rfl, rfl⟩

/-! ## C3, C4: camera-settings persistence (`src/resources.rs`) -/

/-- `CameraSettings` (`src/resources.rs` ll. 81-87). -/
structure CameraSettings where
  mouse_sensitivity : ℚ
  keyboard_sensitivity : ℚ
  movement_speed : ℚ
  zoom_speed : ℚ
deriving DecidableEq, Repr

/-- `CameraSettings::default` (`src/resources.rs` ll. 89-98). -/
def CameraSettings.default : CameraSettings :=
  { mouse_sensitivity := 3 / 1000
    keyboard_sensitivity := 2 / 100
    movement_speed := 10
    zoom_speed := 50 }

/-- A JSON value, the image of `serde_json` serialization (only the
constructors the settings file can contain matter). -/
inductive JsonVal where
  | num (q : ℚ)
  | str (s : String)
  | obj (fields : List (String × JsonVal))

/-- `serde_json::to_string_pretty` on a `CameraSettings` value, modelled
at the level of the JSON document: an object with the four fields in
declaration order. -/
def CameraSettings.toJson (s : CameraSettings) : JsonVal :=
  .obj [("mouse_sensitivity", .num s.mouse_sensitivity),
        ("keyboard_sensitivity", .num s.keyboard_sensitivity),
        ("movement_speed", .num s.movement_speed),
        ("zoom_speed", .num s.zoom_speed)]

/-- Look up a numeric field of a JSON object. -/
def JsonVal.getNum (j : JsonVal) (k : String) : Option ℚ :=
  match j with
  | .obj fields =>
      match fields.lookup k with
      | some (.num q) => some q
      | _ => none
  | _ => none

/-- `serde_json::from_str::<CameraSettings>`, modelled at the JSON level:
the derived deserializer needs all four fields present as numbers. -/
def CameraSettings.fromJson (j : JsonVal) : Option CameraSettings :=
  match j.getNum "mouse_sensitivity", j.getNum "keyboard_sensitivity",
      j.getNum "movement_speed", j.getNum "zoom_speed" with
  | some ms, some ks, some mv, some zs =>
      some { mouse_sensitivity := ms, keyboard_sensitivity := ks,
             movement_speed := mv, zoom_speed := zs }
  | _, _, _, _ => none

/-- The file system visible to the settings code: a map from paths to the
JSON documents stored there (`none` = missing/unreadable file). -/
def FileSys : Type := String → Option JsonVal

/-- `CameraSettings::settings_path` (`src/resources.rs` ll. 102-104). -/
def settings_path : String := "assets/user/camera_settings.json"

/-- `CameraSettings::save_to_file` (ll. 107-114): serialize and write to
the fixed path (the success path; I/O errors abort without writing). -/
def save_to_file (s : CameraSettings) (fs : FileSys) : FileSys :=
  fun p => if p = settings_path then some s.toJson else fs p

/-- `CameraSettings::load_from_file` (ll. 117-121): read the fixed path
and parse; either step can fail. -/
def load_from_file (fs : FileSys) : Except Unit CameraSettings :=
  match fs settings_path with
  | none => .error ()
  | some j =>
      match CameraSettings.fromJson j with
      | none => .error ()
      | some s => .ok s

/-- `CameraSettings::load_or_default` (ll. 124-129): the parsed settings
on success, the hardcoded defaults after a console message on any
failure.  The returned `Bool` records whether the message was printed. -/
def load_or_default (fs : FileSys) : CameraSettings × Bool :=
  match load_from_file fs with
  | .ok s => (s, false)
  | .error _ => (CameraSettings.default, true)

/-- C3.  `load_or_default` returns the parsed settings when reading and
parsing succeed, and exactly the hardcoded defaults
(0.003, 0.02, 10.0, 50.0) after printing a console message on every
read or parse failure. -/
theorem load_or_default_correct (fs : FileSys) :
    (∀ s, load_from_file fs = .ok s → load_or_default fs = (s, false)) ∧
    (∀ e, load_from_file fs = .error e →
      load_or_default fs = (⟨3 / 1000, 2 / 100, 10, 50⟩, true)) := by
  constructor
  · intro s hs
    unfold load_or_default
    rw [hs]
  · intro e he
    unfold load_or_default
    rw [he]
    rfl

/-- Witness for C3: the empty file system fails to read, so the defaults
come back with the console message; a file system holding a valid
document loads it verbatim. -/
theorem load_or_default_correct_witness :
    load_or_default (fun _ => none) = (⟨3 / 1000, 2 / 100, 10, 50⟩, true) ∧
    load_or_default (save_to_file ⟨1, 2, 3, 4⟩ (fun _ => none)) = (⟨1, 2, 3, 4⟩, false) := by
  constructor
  · exact (load_or_default_correct (fun _ => none)).2 () rfl
  · exact (load_or_default_correct (save_to_file ⟨1, 2, 3, 4⟩ (fun _ => none))).1
      ⟨1, 2, 3, 4⟩ rfl

/-- C4.  Settings persist at the single fixed path
`assets/user/camera_settings.json`: saving writes only that path, and a
save followed by a load returns a value whose four fields equal those
saved (the round trip is exact). -/
theorem save_load_round_trip :
    settings_path = "assets/user/camera_settings.json" ∧
    (∀ (s : CameraSettings) (fs : FileSys),
      load_from_file (save_to_file s fs) = .ok s) ∧
    (∀ (s : CameraSettings) (fs : FileSys) (p : String),
      p ≠ settings_path → save_to_file s fs p = fs p) := by
    refine ⟨rfl, ?_, ?_⟩
    · intro s fs
      unfold load_from_file save_to_file
      rw [if_pos rfl]
      rfl
    · intro s fs p hp
      unfold save_to_file
      rw [if_neg hp]

/-- Witness for C4: a concrete save/load round trip, and an unrelated
path left untouched. -/
theorem save_load_round_trip_witness :
    load_from_file (save_to_file ⟨1, 2, 3, 4⟩ (fun _ => none)) = .ok ⟨1, 2, 3, 4⟩ ∧
    save_to_file ⟨1, 2, 3, 4⟩ (fun _ => none) "other.json" = none := by
  refine ⟨save_load_round_trip.2.1 ⟨1, 2, 3, 4⟩ (fun _ => none), ?_⟩
  exact save_load_round_trip.2.2 ⟨1, 2, 3, 4⟩ (fun _ => none) "other.json" (by decide)

/-! ## C7: the Box action button -/

/-- UI constant `ITEM_SLOT_COUNT` (`src/constants.rs` l. 95). -/
def ITEM_SLOT_COUNT : Nat := 9

/-- The sort key of `slots.sort_by_key(|slot| slot.slot_index)`. -/
def slotLE (a b : ItemSlot) : Prop := a.slot_index ≤ b.slot_index

instance : DecidableRel slotLE := fun a b =>
  inferInstanceAs (Decidable (a.slot_index ≤ b.slot_index))

instance : IsTotal ItemSlot slotLE := ⟨fun a b => Nat.le_total a.slot_index b.slot_index⟩

instance : IsTrans ItemSlot slotLE := ⟨fun _ _ _ => Nat.le_trans⟩

/-- Embedding of the `FoxActionButton::Box` arm of
`handle_fox_action_buttons` (`src/cf_systems/game_logic.rs` ll. 550-575),
for one pressed interaction: when the fox query resolves, sort the item
slots by `slot_index` (the source's stable `sort_by_key` is modelled by
insertion sort), store the fox in the first empty slot and hide the fox,
or report that the slots are full; the action menu closes either way.
The source writes through the sorted `&mut` references; here the slot is
updated by its `slot_index`, which coincides while indices are distinct
(they are `0..ITEM_SLOT_COUNT` in setup).  Result:
`(item_slots, feedback, fox visibility, menu open)`. -/
def handle_fox_action_buttons_box (fox : Option Entity) (slots : List ItemSlot)
    (feedback : String) (fox_visible : Bool) (menu_open : Bool) :
    List ItemSlot × String × Bool × Bool :=
  match fox with
  | none => (slots, feedback, fox_visible, menu_open)
  | some _ =>
      let sorted := List.insertionSort slotLE slots
      match sorted.find? (fun s => s.item.isNone) with
      | some s =>
          (slots.map (fun t =>
              if t.slot_index = s.slot_index then { t with item := some ItemType.fox }
              else t),
            "キツネをアイテムエリアに格納しました！", false, false)
      | none => (slots, "アイテムスロットがいっぱいです！", fox_visible, false)

/-- In a pairwise-`r` list, `find?` returns an element `r`-below every
member satisfying the predicate. -/
lemma find?_min_of_pairwise {α : Type} (r : α → α → Prop) (p : α → Bool)
    (hrefl : ∀ a, r a a) (l : List α) (hp : List.Pairwise r l) (s : α)
    (h : l.find? p = some s) :
    ∀ t ∈ l, p t = true → r s t := by
  induction l with
  | nil => simp [List.find?] at h
  | cons a l ih =>
      obtain ⟨ha, hl⟩ := List.pairwise_cons.mp hp
      intro t ht hpt
      by_cases hpa : p a = true
      · have hs : s = a := by
          rw [List.find?_cons_of_pos _ hpa] at h
          exact (Option.some.injEq _ _ ▸ h).symm
        subst hs
        rcases List.mem_cons.mp ht with rfl | htl
        · exact hrefl t
        · exact ha t htl
      · have h' : l.find? p = some s := by
          rw [List.find?_cons_of_neg _ (by simpa using hpa)] at h
          exact h
        rcases List.mem_cons.mp ht with rfl | htl
        · exact absurd hpt hpa
        · exact ih hl h' t htl hpt

/-- C7.  Pressing Box with a fox present: (a) when some slot is empty,
the fox is stored in the empty slot with the lowest `slot_index` — the
first empty slot of the index-sorted list — that slot's `item` becomes
`Some(ItemType::Fox)` and the fox is hidden; (b) when all
`ITEM_SLOT_COUNT` slots hold an item, no slot is modified, the fox stays
visible, and the slots-full message is shown. -/
theorem handle_fox_action_buttons_box_correct :
    (∀ (fe : Entity) (slots : List ItemSlot) (feedback : String)
        (vis menu : Bool) (s : ItemSlot),
      (List.insertionSort slotLE slots).find? (fun t => t.item.isNone) = some s →
      (slots.map ItemSlot.slot_index).Nodup →
        s ∈ slots ∧ s.item = none ∧
        (∀ t ∈ slots, t.item = none → s.slot_index ≤ t.slot_index) ∧
        (handle_fox_action_buttons_box (some fe) slots feedback vis menu).1
          = slots.map (fun t =>
              if t.slot_index = s.slot_index then { t with item := some ItemType.fox }
              else t) ∧
        (handle_fox_action_buttons_box (some fe) slots feedback vis menu).2.1
          = "キツネをアイテムエリアに格納しました！" ∧
        (handle_fox_action_buttons_box (some fe) slots feedback vis menu).2.2.1
          = false) ∧
    (∀ (fe : Entity) (slots : List ItemSlot) (feedback : String) (vis menu : Bool),
      slots.length = ITEM_SLOT_COUNT →
      (∀ t ∈ slots, t.item ≠ none) →
        handle_fox_action_buttons_box (some fe) slots feedback vis menu
          = (slots, "アイテムスロットがいっぱいです！", vis, false)) := by
  constructor
  · intro fe slots feedback vis menu s hfind _hnd
    have hmem : s ∈ List.insertionSort slotLE slots := List.mem_of_find?_eq_some hfind
    have hmem' : s ∈ slots := by
      rw [← List.mem_insertionSort (r := slotLE)]
      exact hmem
    have hempty : s.item = none := by
      have := List.find?_some hfind
      simpa [Option.isNone_iff_eq_none] using this
    have hmin : ∀ t ∈ slots, t.item = none → s.slot_index ≤ t.slot_index := by
      intro t ht htempty
      have hsorted : List.Pairwise slotLE (List.insertionSort slotLE slots) :=
        List.sorted_insertionSort slotLE slots
      have htmem : t ∈ List.insertionSort slotLE slots := by
        rw [List.mem_insertionSort (r := slotLE)]
        exact ht
      exact find?_min_of_pairwise slotLE (fun t => t.item.isNone)
        (fun a => Nat.le_refl a.slot_index) _ hsorted s hfind t htmem
        (by simp [htempty])
    refine ⟨hmem', hempty, hmin, ?_, ?_, ?_⟩ <;>
      · simp only [handle_fox_action_buttons_box]
        rw [hfind]
  · intro fe slots feedback vis menu _hlen hfull
    have hnone : (List.insertionSort slotLE slots).find? (fun t => t.item.isNone) = none := by
      rw [List.find?_eq_none]
      intro t ht
      have ht' : t ∈ slots := by
        rw [← List.mem_insertionSort (r := slotLE)]
        exact ht
      simp [Option.isNone_iff_eq_none]
      exact hfull t ht'
    simp only [handle_fox_action_buttons_box]
    rw [hnone]

/-- Witness slot lists for C7: one with empties (lowest empty index 1)
and a full one of `ITEM_SLOT_COUNT` slots. -/
def c7slots : List ItemSlot := [⟨0, some ItemType.fox⟩, ⟨2, none⟩, ⟨1, none⟩]

/-- The full slot list for the C7 witness. -/
def c7fullSlots : List ItemSlot :=
  (List.range ITEM_SLOT_COUNT).map (fun i => ⟨i, some ItemType.fox⟩)

/-- Witness for C7: with slots `{0: fox, 2: empty, 1: empty}` the fox
lands in slot 1 (the lowest-index empty one) and is hidden; with all nine
slots full nothing changes and the full message shows. -/
theorem handle_fox_action_buttons_box_correct_witness :
    (handle_fox_action_buttons_box (some 7) c7slots "" true true).1
      = [⟨0, some ItemType.fox⟩, ⟨2, none⟩, ⟨1, some ItemType.fox⟩] ∧
    (handle_fox_action_buttons_box (some 7) c7slots "" true true).2.1
      = "キツネをアイテムエリアに格納しました！" ∧
    (handle_fox_action_buttons_box (some 7) c7slots "" true true).2.2.1 = false ∧
    handle_fox_action_buttons_box (some 7) c7fullSlots "" true true
      = (c7fullSlots, "アイテムスロットがいっぱいです！", true, false) := by
  have h := handle_fox_action_buttons_box_correct.1 7 c7slots "" true true ⟨1, none⟩
    (by decide) (by decide)
  have h2 := handle_fox_action_buttons_box_correct.2 7 c7fullSlots "" true true
    (by decide) (by decide)
  refine ⟨?_, h.2.2.2.2.1, h.2.2.2.2.2, h2⟩
  rw [h.2.2.2.1]
  decide

/-! ## C8: weather state machine (`src/cf_systems/weather.rs`) -/

/-- Weather constant `RAIN_SPAWN_RATE` (`src/constants.rs` l. 67). -/
def RAIN_SPAWN_RATE : ℚ := 150

/-- `RAIN_SPAWN_HEIGHT`. -/
def RAIN_SPAWN_HEIGHT : ℚ := 200

/-- `RAIN_FALL_VELOCITY`. -/
def RAIN_FALL_VELOCITY : ℚ := -200

/-- `RAIN_LIFETIME`. -/
def RAIN_LIFETIME : ℚ := 5

/-- `WEATHER_RAIN_DURATION_MIN` (`src/constants.rs` l. 85). -/
def WEATHER_RAIN_DURATION_MIN : ℚ := 30

/-- `WEATHER_RAIN_DURATION_MAX`. -/
def WEATHER_RAIN_DURATION_MAX : ℚ := 180

/-- `WEATHER_CLEAR_DURATION_MIN`. -/
def WEATHER_CLEAR_DURATION_MIN : ℚ := 60

/-- `WEATHER_CLEAR_DURATION_MAX`. -/
def WEATHER_CLEAR_DURATION_MAX : ℚ := 300

/-- `SUN_ILLUMINANCE_CLEAR` (`src/constants.rs` l. 57). -/
def SUN_ILLUMINANCE_CLEAR : ℚ := 30000

/-- `SUN_ILLUMINANCE_RAIN`. -/
def SUN_ILLUMINANCE_RAIN : ℚ := 8000

/-- `WeatherState` resource (`src/resources.rs` ll. 70-74). -/
structure WeatherState where
  is_raining : Bool
  time_until_change : ℚ
deriving DecidableEq, Repr

/-- Embedding of `update_weather` (`src/cf_systems/weather.rs` ll. 9-41).
`sample lo hi` stands for `rng.random_range(lo..hi)`; the theorems carry
its contract `lo ≤ sample lo hi < hi` as a hypothesis.  The second
component is the sun illuminance (`none` = no `SunLight` entity). -/
def update_weather (w : WeatherState) (dt : ℚ) (sample : ℚ → ℚ → ℚ)
    (sun : Option ℚ) : WeatherState × Option ℚ :=
  let t := w.time_until_change - dt
  if t ≤ 0 then
    let raining := !w.is_raining
    let next :=
      if raining then sample WEATHER_RAIN_DURATION_MIN WEATHER_RAIN_DURATION_MAX
      else sample WEATHER_CLEAR_DURATION_MIN WEATHER_CLEAR_DURATION_MAX
    (⟨raining, next⟩,
      sun.map (fun _ => if raining then SUN_ILLUMINANCE_RAIN else SUN_ILLUMINANCE_CLEAR))
  else
    ({ w with time_until_change := t }, sun)

/-- A spawned raindrop: its transform position and `RainDrop` component. -/
structure RainDropSpawn where
  position : Vec3 ℚ
  velocity : Vec3 ℚ
  lifetime : ℚ
deriving DecidableEq, Repr

/-- Embedding of `spawn_rain` (`src/cf_systems/weather.rs` ll. 44-82):
no drops unless raining; otherwise `(RAIN_SPAWN_RATE * dt) as i32` drops
at sampled x/z positions (the `as i32` truncation toward zero is the
floor on the nonnegative frame deltas; `Int.toNat` makes the negative
case the empty loop, as in Rust). -/
def spawn_rain (w : WeatherState) (dt : ℚ) (sampleX sampleZ : Nat → ℚ) :
    List RainDropSpawn :=
  if !w.is_raining then []
  else
    let drops_to_spawn : Int := ⌊RAIN_SPAWN_RATE * dt⌋
    (List.range drops_to_spawn.toNat).map (fun i =>
      { position := ⟨sampleX i, RAIN_SPAWN_HEIGHT, sampleZ i⟩
        velocity := ⟨0, RAIN_FALL_VELOCITY, 0⟩
        lifetime := RAIN_LIFETIME })

/-- C8.  (a) `update_weather` toggles `is_raining` exactly when the
decremented `time_until_change` reaches 0 or below; (b) at a toggle the
new `time_until_change` is drawn from `[WEATHER_RAIN_DURATION_MIN,
WEATHER_RAIN_DURATION_MAX)` when it is now raining and from
`[WEATHER_CLEAR_DURATION_MIN, WEATHER_CLEAR_DURATION_MAX)` when it is now
clear; (c) `spawn_rain` creates raindrops only while `is_raining`. -/
theorem weather_state_machine :
    (∀ (w : WeatherState) (dt : ℚ) (sample : ℚ → ℚ → ℚ) (sun : Option ℚ),
      (update_weather w dt sample sun).1.is_raining
        = if w.time_until_change - dt ≤ 0 then !w.is_raining else w.is_raining) ∧
    (∀ (w : WeatherState) (dt : ℚ) (sample : ℚ → ℚ → ℚ) (sun : Option ℚ),
      (∀ lo hi, lo < hi → lo ≤ sample lo hi ∧ sample lo hi < hi) →
      w.time_until_change - dt ≤ 0 →
        (((update_weather w dt sample sun).1.is_raining = true →
            WEATHER_RAIN_DURATION_MIN ≤ (update_weather w dt sample sun).1.time_until_change ∧
            (update_weather w dt sample sun).1.time_until_change < WEATHER_RAIN_DURATION_MAX) ∧
          ((update_weather w dt sample sun).1.is_raining = false →
            WEATHER_CLEAR_DURATION_MIN ≤ (update_weather w dt sample sun).1.time_until_change ∧
            (update_weather w dt sample sun).1.time_until_change < WEATHER_CLEAR_DURATION_MAX))) ∧
    (∀ (w : WeatherState) (dt : ℚ) (sampleX sampleZ : Nat → ℚ),
      w.is_raining = false → spawn_rain w dt sampleX sampleZ = []) := by
  refine ⟨?_, ?_, ?_⟩
  · intro w dt sample sun
    unfold update_weather
    by_cases ht : w.time_until_change - dt ≤ 0
    · rw [if_pos ht, if_pos ht]
    · rw [if_neg ht, if_neg ht]
  · intro w dt sample sun hsample ht
    have hproj1 : (update_weather w dt sample sun).1.is_raining = !w.is_raining := by
      unfold update_weather
      rw [if_pos ht]
    have hproj2 : (update_weather w dt sample sun).1.time_until_change
        = if !w.is_raining
          then sample WEATHER_RAIN_DURATION_MIN WEATHER_RAIN_DURATION_MAX
          else sample WEATHER_CLEAR_DURATION_MIN WEATHER_CLEAR_DURATION_MAX := by
      unfold update_weather
      rw [if_pos ht]
    rw [hproj1, hproj2]
    cases hb : w.is_raining
    · refine ⟨fun _ => ?_, fun hcon => absurd hcon (by simp)⟩
      simp only [Bool.not_false, if_true]
      exact hsample WEATHER_RAIN_DURATION_MIN WEATHER_RAIN_DURATION_MAX
        (by norm_num [WEATHER_RAIN_DURATION_MIN, WEATHER_RAIN_DURATION_MAX])
    · refine ⟨fun hcon => absurd hcon (by simp), fun _ => ?_⟩
      simp only [Bool.not_true, if_false]
      exact hsample WEATHER_CLEAR_DURATION_MIN WEATHER_CLEAR_DURATION_MAX
        (by norm_num [WEATHER_CLEAR_DURATION_MIN, WEATHER_CLEAR_DURATION_MAX])
  · intro w dt sampleX sampleZ hnr
    unfold spawn_rain
    rw [hnr]
    rfl

/-- Witness for C8: starting clear with 5 seconds left and a 10-second
frame, the weather toggles to rain and (with the left-endpoint sampler,
which meets the range contract) the new countdown is
`WEATHER_RAIN_DURATION_MIN`; while clear no raindrop spawns. -/
theorem weather_state_machine_witness :
    (update_weather ⟨false, 5⟩ 10 (fun lo _ => lo) none).1.is_raining
      = (if (5 : ℚ) - 10 ≤ 0 then !false else false) ∧
    (WEATHER_RAIN_DURATION_MIN
        ≤ (update_weather ⟨false, 5⟩ 10 (fun lo _ => lo) none).1.time_until_change ∧
      (update_weather ⟨false, 5⟩ 10 (fun lo _ => lo) none).1.time_until_change
        < WEATHER_RAIN_DURATION_MAX) ∧
    spawn_rain ⟨false, 5⟩ 10 (fun _ => 0) (fun _ => 0) = [] := by
  have hr : (update_weather ⟨false, 5⟩ 10 (fun lo _ => lo) none).1.is_raining = true := by
    rw [weather_state_machine.1 ⟨false, 5⟩ 10 (fun lo _ => lo) none]
    norm_num
  refine ⟨weather_state_machine.1 ⟨false, 5⟩ 10 (fun lo _ => lo) none, ?_, ?_⟩
  · exact (weather_state_machine.2.1 ⟨false, 5⟩ 10 (fun lo _ => lo) none
      (fun lo hi h => ⟨le_refl lo, h⟩) (by norm_num)).1 hr
  · exact weather_state_machine.2.2 ⟨false, 5⟩ 10 (fun _ => 0) (fun _ => 0) rfl

/-! ## C9: settings buttons keep every field in its bounds -/

/-- `SettingButton` (`src/components.rs`): the ten settings-menu buttons. -/
inductive SettingButton where
  | mouseSensitivityUp
  | mouseSensitivityDown
  | keyboardSensitivityUp
  | keyboardSensitivityDown
  | movementSpeedUp
  | movementSpeedDown
  | zoomSpeedUp
  | zoomSpeedDown
  | saveSettings
  | loadSettings
deriving DecidableEq, Repr

/-- One pressed interaction of `handle_setting_buttons`
(`src/cf_systems/ui.rs` ll. 29-79; the `src/main.rs` copy is identical).
`fileSettings` is what `load_from_file` would return (`none` = failure);
`SaveSettings` writes the file and leaves the resource unchanged. -/
def handle_setting_button (fileSettings : Option CameraSettings)
    (b : SettingButton) (s : CameraSettings) : CameraSettings :=
  match b with
  | .mouseSensitivityUp =>
      { s with mouse_sensitivity := min (s.mouse_sensitivity + 1 / 1000) (2 / 100) }
  | .mouseSensitivityDown =>
      { s with mouse_sensitivity := max (s.mouse_sensitivity - 1 / 1000) (1 / 1000) }
  | .keyboardSensitivityUp =>
      { s with keyboard_sensitivity := min (s.keyboard_sensitivity + 1 / 100) (1 / 10) }
  | .keyboardSensitivityDown =>
      { s with keyboard_sensitivity := max (s.keyboard_sensitivity - 1 / 100) (1 / 100) }
  | .movementSpeedUp => { s with movement_speed := min (s.movement_speed + 5) 100 }
  | .movementSpeedDown => { s with movement_speed := max (s.movement_speed - 5) 5 }
  | .zoomSpeedUp => { s with zoom_speed := min (s.zoom_speed + 10) 200 }
  | .zoomSpeedDown => { s with zoom_speed := max (s.zoom_speed - 10) 10 }
  | .saveSettings => s
  | .loadSettings =>
      match fileSettings with
      | some loaded => loaded
      | none => s

/-- A sequence of pressed settings buttons across frames. -/
def handle_setting_buttons (fileSettings : Option CameraSettings)
    (presses : List SettingButton) (s : CameraSettings) : CameraSettings :=
  presses.foldl (fun acc b => handle_setting_button fileSettings b acc) s

/-- The `+`/`-` adjustment buttons (everything except save/load). -/
def SettingButton.isAdjust : SettingButton → Bool
  | .saveSettings => false
  | .loadSettings => false
  | _ => true

/-- The bounds the claim names: mouse sensitivity in `[0.001, 0.02]`,
keyboard sensitivity in `[0.01, 0.1]`, movement speed in `[5, 100]`,
zoom speed in `[10, 200]`. -/
def inSettingBounds (s : CameraSettings) : Prop :=
  1 / 1000 ≤ s.mouse_sensitivity ∧ s.mouse_sensitivity ≤ 2 / 100 ∧
  1 / 100 ≤ s.keyboard_sensitivity ∧ s.keyboard_sensitivity ≤ 1 / 10 ∧
  5 ≤ s.movement_speed ∧ s.movement_speed ≤ 100 ∧
  10 ≤ s.zoom_speed ∧ s.zoom_speed ≤ 200

instance (s : CameraSettings) : Decidable (inSettingBounds s) := by
  unfold inSettingBounds; infer_instance

private lemma up_bounds (lo hi x d : ℚ) (h1 : lo ≤ x) (h2 : 0 ≤ d) (h3 : lo ≤ hi) :
    lo ≤ min (x + d) hi ∧ min (x + d) hi ≤ hi :=
  ⟨le_min (by linarith) h3, min_le_right _ _⟩

private lemma down_bounds (lo hi x d : ℚ) (h1 : x ≤ hi) (h2 : 0 ≤ d) (h3 : lo ≤ hi) :
    lo ≤ max (x - d) lo ∧ max (x - d) lo ≤ hi :=
  ⟨le_max_right _ _, max_le (by linarith) h3⟩

/-- One adjustment press preserves the bounds. -/
lemma handle_setting_button_bounds (fileSettings : Option CameraSettings)
    (b : SettingButton) (s : CameraSettings)
    (hb : b.isAdjust = true) (hs : inSettingBounds s) :
    inSettingBounds (handle_setting_button fileSettings b s) := by
  obtain ⟨h1, h2, h3, h4, h5, h6, h7, h8⟩ := hs
  cases b <;> simp [SettingButton.isAdjust] at hb <;>
    unfold handle_setting_button inSettingBounds
  · exact ⟨(up_bounds _ _ _ _ h1 (by norm_num) (by norm_num)).1,
      (up_bounds _ _ _ _ h1 (by norm_num) (by norm_num)).2, h3, h4, h5, h6, h7, h8⟩
  · exact ⟨(down_bounds _ _ _ _ h2 (by norm_num) (by norm_num)).1,
      (down_bounds _ _ _ _ h2 (by norm_num) (by norm_num)).2, h3, h4, h5, h6, h7, h8⟩
  · exact ⟨h1, h2, (up_bounds _ _ _ _ h3 (by norm_num) (by norm_num)).1,
      (up_bounds _ _ _ _ h3 (by norm_num) (by norm_num)).2, h5, h6, h7, h8⟩
  · exact ⟨h1, h2, (down_bounds _ _ _ _ h4 (by norm_num) (by norm_num)).1,
      (down_bounds _ _ _ _ h4 (by norm_num) (by norm_num)).2, h5, h6, h7, h8⟩
  · exact ⟨h1, h2, h3, h4, (up_bounds _ _ _ _ h5 (by norm_num) (by norm_num)).1,
      (up_bounds _ _ _ _ h5 (by norm_num) (by norm_num)).2, h7, h8⟩
  · exact ⟨h1, h2, h3, h4, (down_bounds _ _ _ _ h6 (by norm_num) (by norm_num)).1,
      (down_bounds _ _ _ _ h6 (by norm_num) (by norm_num)).2, h7, h8⟩
  · exact ⟨h1, h2, h3, h4, h5, h6, (up_bounds _ _ _ _ h7 (by norm_num) (by norm_num)).1,
      (up_bounds _ _ _ _ h7 (by norm_num) (by norm_num)).2⟩
  · exact ⟨h1, h2, h3, h4, h5, h6, (down_bounds _ _ _ _ h8 (by norm_num) (by norm_num)).1,
      (down_bounds _ _ _ _ h8 (by norm_num) (by norm_num)).2⟩

/-- C9.  Starting inside the bounds, any sequence of `+`/`-` settings
button presses leaves every `CameraSettings` field inside its bounds:
mouse sensitivity in `[0.001, 0.02]`, keyboard sensitivity in
`[0.01, 0.1]`, movement speed in `[5, 100]`, zoom speed in `[10, 200]`. -/
theorem handle_setting_buttons_bounds (fileSettings : Option CameraSettings)
    (presses : List SettingButton) (s : CameraSettings)
    (hall : ∀ b ∈ presses, b.isAdjust = true) (hs : inSettingBounds s) :
    inSettingBounds (handle_setting_buttons fileSettings presses s) := by
  have main : ∀ (ps : List SettingButton) (t : CameraSettings),
      (∀ b ∈ ps, b.isAdjust = true) → inSettingBounds t →
      inSettingBounds (handle_setting_buttons fileSettings ps t) := by
    intro ps
    induction ps with
    | nil => intro t _ ht; exact ht
    | cons b rest ih =>
        intro t hall2 ht
        exact ih (handle_setting_button fileSettings b t)
          (fun x hx => hall2 x (List.mem_cons_of_mem b hx))
          (handle_setting_button_bounds fileSettings b t
            (hall2 b (List.mem_cons_self b rest)) ht)
  exact main presses s hall hs

/-- Witness for C9: from the default settings, a press sequence touching
every field stays inside the bounds. -/
theorem handle_setting_buttons_bounds_witness :
    inSettingBounds (handle_setting_buttons none
      [SettingButton.mouseSensitivityUp, SettingButton.keyboardSensitivityDown,
        SettingButton.movementSpeedUp, SettingButton.zoomSpeedDown,
        SettingButton.zoomSpeedDown] CameraSettings.default) :=
  handle_setting_buttons_bounds none _ CameraSettings.default
    (by decide) (by norm_num [inSettingBounds, CameraSettings.default])

/-! ## Camera model over `ℝ` (`src/cf_systems/camera.rs`)

The camera systems use trigonometry, so they are embedded over the real
numbers.  A `Quat` is represented by its YXZ Euler decomposition, the only
form in which the source reads or writes rotations
(`to_euler(EulerRot::YXZ)` / `Quat::from_euler(EulerRot::YXZ, ..)` become
the projection and constructor of the triple); the pitch clamp keeps the
pitch inside the principal range of the decomposition, so the
representation is faithful on every state these systems produce. -/

/-- A rotation, by its YXZ Euler angles. -/
structure RotYXZ where
  yaw : ℝ
  pitch : ℝ
  roll : ℝ

/-- `Quat::to_euler(EulerRot::YXZ)` on the Euler representation. -/
def to_euler_yxz (r : RotYXZ) : ℝ × ℝ × ℝ := (r.yaw, r.pitch, r.roll)

/-- `Quat::from_euler(EulerRot::YXZ, yaw, pitch, roll)`. -/
def from_euler_yxz (yaw pitch roll : ℝ) : RotYXZ := ⟨yaw, pitch, roll⟩

/-- `bevy::Transform`: translation and rotation (the scale is untouched
by every embedded system and omitted). -/
structure Transform3 where
  translation : Vec3 ℝ
  rotation : RotYXZ

/-- `Transform::forward()`: the rotation applied to `-Z`, written out for
the YXZ Euler angles. -/
noncomputable def Transform3.forward (t : Transform3) : Vec3 ℝ :=
  ⟨-(Real.cos t.rotation.pitch * Real.sin t.rotation.yaw),
    Real.sin t.rotation.pitch,
    -(Real.cos t.rotation.pitch * Real.cos t.rotation.yaw)⟩

/-- `Transform::right()`: the rotation applied to `+X`. -/
noncomputable def Transform3.right (t : Transform3) : Vec3 ℝ :=
  ⟨Real.cos t.rotation.roll * Real.cos t.rotation.yaw +
      Real.sin t.rotation.roll * Real.sin t.rotation.pitch * Real.sin t.rotation.yaw,
    Real.sin t.rotation.roll * Real.cos t.rotation.pitch,
    -(Real.cos t.rotation.roll * Real.sin t.rotation.yaw) +
      Real.sin t.rotation.roll * Real.sin t.rotation.pitch * Real.cos t.rotation.yaw⟩

/-- `Vec3::normalize`: scale by the inverse norm (only ever applied to
nonzero vectors in the embedded code paths). -/
noncomputable def vnormalize (v : Vec3 ℝ) : Vec3 ℝ :=
  v.smul (Real.sqrt (v.x ^ 2 + v.y ^ 2 + v.z ^ 2))⁻¹

/-- `Vec3::normalize_or_zero`. -/
noncomputable def normalizeOrZero (v : Vec3 ℝ) : Vec3 ℝ :=
  if v = Vec3.zero then Vec3.zero else vnormalize v

/-- `f32::clamp(x, lo, hi)` (for `lo ≤ hi`). -/
noncomputable def fclamp (x lo hi : ℝ) : ℝ := max lo (min x hi)

/-- `CAMERA_PITCH_LIMIT` (`src/constants.rs` l. 31). -/
noncomputable def CAMERA_PITCH_LIMIT : ℝ := 3 / 2

/-- `PossessionMode` resource (`src/resources.rs` ll. 28-34). -/
structure PossessionMode where
  is_active : Bool
  fox_entity : Option Entity
  camera_offset : Vec3 ℝ
  previous_camera_transform : Option Transform3

/-- `MouseDragState` resource (`src/resources.rs` ll. 13-17). -/
structure MouseDragState where
  is_dragging : Bool
  last_position : Option (ℝ × ℝ)

/-- The four arrow keys read by `camera_keyboard_rotation`. -/
structure ArrowKeys where
  left : Bool
  right : Bool
  up : Bool
  down : Bool

/-- The four WASD keys. -/
structure WasdKeys where
  w : Bool
  a : Bool
  s : Bool
  d : Bool

/-- Embedding of `camera_zoom` (`src/cf_systems/camera.rs` ll. 8-26):
disabled during possession mode; otherwise each wheel event moves the
camera along its forward vector by `event.y * zoom_speed`. -/
noncomputable def camera_zoom (wheel_events : List ℝ) (cam : Option Transform3)
    (settings : CameraSettings) (possession_mode : PossessionMode) :
    Option Transform3 :=
  if possession_mode.is_active then cam
  else
    wheel_events.foldl (fun c event_y =>
      match c with
      | some t =>
          some { t with translation :=
            (t.translation.add ((t.forward.smul event_y).smul (settings.zoom_speed : ℝ))) }
      | none => none) cam

/-- Embedding of `camera_drag_rotation` (`src/cf_systems/camera.rs`
ll. 29-84): disabled (and drag state cleared) during move or possession
mode; otherwise a pressed left button with a previous cursor position
rotates yaw freely and clamps pitch to `±CAMERA_PITCH_LIMIT`. -/
noncomputable def camera_drag_rotation (left_pressed window_ok : Bool)
    (cursor : Option (ℝ × ℝ)) (cam : Option Transform3) (drag : MouseDragState)
    (settings : CameraSettings) (move_mode : FoxMoveMode)
    (possession_mode : PossessionMode) : Option Transform3 × MouseDragState :=
  if move_mode.is_active || possession_mode.is_active then (cam, ⟨false, none⟩)
  else if !window_ok then (cam, drag)
  else
    match cursor with
    | none => (cam, ⟨false, none⟩)
    | some cursor_position =>
        if left_pressed then
          let cam' :=
            match drag.last_position, cam with
            | some last_pos, some t =>
                let dx := cursor_position.1 - last_pos.1
                let dy := cursor_position.2 - last_pos.2
                let yaw := -dx * (settings.mouse_sensitivity : ℝ)
                let pitch := -dy * (settings.mouse_sensitivity : ℝ)
                let e := to_euler_yxz t.rotation
                let new_pitch := fclamp (e.2.1 + pitch) (-CAMERA_PITCH_LIMIT) CAMERA_PITCH_LIMIT
                some { t with rotation := from_euler_yxz (e.1 + yaw) new_pitch e.2.2 }
            | _, _ => cam
          (cam', ⟨true, some cursor_position⟩)
        else (cam, ⟨false, none⟩)

/-- Embedding of `camera_keyboard_rotation` (`src/cf_systems/camera.rs`
ll. 87-132): disabled during possession mode; arrow keys accumulate yaw
and pitch deltas, pitch clamped to `±CAMERA_PITCH_LIMIT`. -/
noncomputable def camera_keyboard_rotation (arrows : ArrowKeys)
    (cam : Option Transform3) (settings : CameraSettings)
    (possession_mode : PossessionMode) : Option Transform3 :=
  if possession_mode.is_active then cam
  else
    match cam with
    | none => none
    | some t =>
        let yaw1 : ℝ := if arrows.left then 0 + (settings.keyboard_sensitivity : ℝ) else 0
        let yaw_delta := if arrows.right then yaw1 - (settings.keyboard_sensitivity : ℝ) else yaw1
        let pitch1 : ℝ := if arrows.up then 0 + (settings.keyboard_sensitivity : ℝ) else 0
        let pitch_delta := if arrows.down then pitch1 - (settings.keyboard_sensitivity : ℝ) else pitch1
        if yaw_delta ≠ 0 ∨ pitch_delta ≠ 0 then
          let e := to_euler_yxz t.rotation
          let new_pitch := fclamp (e.2.1 + pitch_delta) (-CAMERA_PITCH_LIMIT) CAMERA_PITCH_LIMIT
          some { t with rotation := from_euler_yxz (e.1 + yaw_delta) new_pitch e.2.2 }
        else some t

/-- Embedding of `camera_keyboard_pan` (`src/cf_systems/camera.rs`
ll. 135-173): disabled during possession mode; WASD accumulate a
horizontal movement along the camera's ground-projected forward/right. -/
noncomputable def camera_keyboard_pan (keys : WasdKeys) (cam : Option Transform3)
    (settings : CameraSettings) (possession_mode : PossessionMode) :
    Option Transform3 :=
  if possession_mode.is_active then cam
  else
    match cam with
    | none => none
    | some t =>
        let forward := t.forward
        let forward_xz := normalizeOrZero ⟨forward.x, 0, forward.z⟩
        let right := t.right
        let right_xz := normalizeOrZero ⟨right.x, 0, right.z⟩
        let m0 : Vec3 ℝ := Vec3.zero
        let m1 := if keys.w then m0.add (forward_xz.smul (settings.movement_speed : ℝ)) else m0
        let m2 := if keys.s then m1.sub (forward_xz.smul (settings.movement_speed : ℝ)) else m1
        let m3 := if keys.a then m2.sub (right_xz.smul (settings.movement_speed : ℝ)) else m2
        let m4 := if keys.d then m3.add (right_xz.smul (settings.movement_speed : ℝ)) else m3
        if m4 ≠ Vec3.zero then some { t with translation := t.translation.add m4 }
        else some t

/-- Embedding of `possession_camera_rotation` (`src/cf_systems/camera.rs`
ll. 220-271): the possession-mode variant of the drag rotation, enabled
only while possession mode is active; the same pitch clamp. -/
noncomputable def possession_camera_rotation (left_pressed window_ok : Bool)
    (cursor : Option (ℝ × ℝ)) (cam : Option Transform3) (drag : MouseDragState)
    (settings : CameraSettings) (possession_mode : PossessionMode) :
    Option Transform3 × MouseDragState :=
  if ¬ possession_mode.is_active then (cam, drag)
  else if !window_ok then (cam, drag)
  else
    match cursor with
    | none => (cam, ⟨false, none⟩)
    | some cursor_position =>
        if left_pressed then
          let cam' :=
            match drag.last_position, cam with
            | some last_pos, some t =>
                let dx := cursor_position.1 - last_pos.1
                let dy := cursor_position.2 - last_pos.2
                let yaw := -dx * (settings.mouse_sensitivity : ℝ)
                let pitch := -dy * (settings.mouse_sensitivity : ℝ)
                let e := to_euler_yxz t.rotation
                let new_pitch := fclamp (e.2.1 + pitch) (-CAMERA_PITCH_LIMIT) CAMERA_PITCH_LIMIT
                some { t with rotation := from_euler_yxz (e.1 + yaw) new_pitch e.2.2 }
            | _, _ => cam
          (cam', ⟨true, some cursor_position⟩)
        else (cam, ⟨false, none⟩)

/-- The WASD keys read by `fox_possession_movement`, with their
`just_pressed` edges for the double-tap dash detection. -/
structure KeyState where
  pressed : WasdKeys
  just_pressed : WasdKeys

/-- The four movement keys tracked by the dash detector. -/
inductive MoveKey where
  | kw
  | ks
  | ka
  | kd
deriving DecidableEq, Repr

/-- `DashInputState` resource (`src/resources.rs` ll. 37-54). -/
structure DashInputState where
  is_dashing : Bool
  last_tap_time : Option ℝ
  last_key : Option MoveKey
  dash_timeout : ℝ

/-- One iteration of the double-tap loop of `fox_possession_movement`
(`src/cf_systems/game_logic.rs` ll. 723-736). -/
noncomputable def dashTapStep (current_time : ℝ) (d : DashInputState)
    (k : MoveKey) (jp : Bool) : DashInputState :=
  if jp then
    let d1 :=
      match d.last_tap_time, d.last_key with
      | some last_time, some last_key =>
          if last_key = k ∧ (current_time - last_time) < d.dash_timeout then
            { d with is_dashing := true }
          else d
      | _, _ => d
    { d1 with last_tap_time := some current_time, last_key := some k }
  else d

/-- The dash-state update of `fox_possession_movement`: the four
double-tap iterations, then dash release when no movement key is held. -/
noncomputable def possessionDashUpdate (keys : KeyState) (current_time : ℝ)
    (dash : DashInputState) : DashInputState :=
  let d1 := dashTapStep current_time dash MoveKey.kw keys.just_pressed.w
  let d2 := dashTapStep current_time d1 MoveKey.ks keys.just_pressed.s
  let d3 := dashTapStep current_time d2 MoveKey.ka keys.just_pressed.a
  let d4 := dashTapStep current_time d3 MoveKey.kd keys.just_pressed.d
  if ¬ keys.pressed.w ∧ ¬ keys.pressed.s ∧ ¬ keys.pressed.a ∧ ¬ keys.pressed.d then
    { d4 with is_dashing := false }
  else d4

/-- The movement accumulator of `fox_possession_movement`
(ll. 747-773): the camera's ground-projected forward/right summed over
the held WASD keys. -/
noncomputable def possessionMovementDir (pressed : WasdKeys)
    (camera_transform : Transform3) : Vec3 ℝ :=
  let camera_forward := camera_transform.forward
  let forward_xz := normalizeOrZero ⟨camera_forward.x, 0, camera_forward.z⟩
  let camera_right := camera_transform.right
  let right_xz := normalizeOrZero ⟨camera_right.x, 0, camera_right.z⟩
  let m0 : Vec3 ℝ := Vec3.zero
  let m1 := if pressed.w then m0.add forward_xz else m0
  let m2 := if pressed.s then m1.sub forward_xz else m1
  let m3 := if pressed.a then m2.sub right_xz else m2
  if pressed.d then m3.add right_xz else m3

/-- Embedding of `fox_possession_movement` (`src/cf_systems/game_logic.rs`
ll. 694-788): while possession mode is active and fox, camera and held
keys resolve, update the dash state, then move the fox by
`normalize(movement) * speed * dt` and turn it toward the movement
(`looking_to` for a horizontal vector is a yaw-only rotation
`atan2(-m.x, -m.z)`, composed with the 180° model correction). -/
noncomputable def fox_possession_movement (keys : KeyState)
    (possession_mode : PossessionMode) (foxes : List (Entity × Transform3))
    (camera : Option Transform3) (elapsed dt : ℝ) (dash : DashInputState) :
    List (Entity × Transform3) × DashInputState :=
  if ¬ possession_mode.is_active then (foxes, dash)
  else
    match possession_mode.fox_entity with
    | none => (foxes, dash)
    | some fox_entity =>
        match assocFind foxes fox_entity with
        | none => (foxes, dash)
        | some fox_transform =>
            match camera with
            | none => (foxes, dash)
            | some camera_transform =>
                let current_time := elapsed
                let d5 := possessionDashUpdate keys current_time dash
                let base_speed : ℝ := 15
                let dash_speed : ℝ := 50
                let movement_speed := if d5.is_dashing then dash_speed else base_speed
                let m4 := possessionMovementDir keys.pressed camera_transform
                if m4 ≠ Vec3.zero then
                  let movement := (vnormalize m4).smul (movement_speed * dt)
                  let new_transform :=
                    { fox_transform with
                        translation := (fox_transform.translation.add movement),
                        rotation :=
                          ⟨Complex.arg ⟨-movement.z, -movement.x⟩ + Real.pi, 0, 0⟩ }
                  (assocSet foxes fox_entity new_transform, d5)
                else (foxes, d5)

/-! ## C6: possession mode disables the free camera and drives the fox -/

/-- Updating an entity present in an association-list query makes its
component the stored value. -/
lemma assocFind_assocSet {β : Type} (l : List (Entity × β)) (e : Entity) (b : β)
    (h : (assocFind l e).isSome = true) :
    assocFind (assocSet l e b) e = some b := by
  induction l with
  | nil => simp [assocFind] at h
  | cons p rest ih =>
      by_cases hp : p.1 = e
      · simp [assocSet, assocFind, List.find?, hp]
      · rw [show assocSet (p :: rest) e b = p :: assocSet rest e b by
          simp [assocSet, hp]]
        rw [show assocFind (p :: assocSet rest e b) e = assocFind (assocSet rest e b) e by
          simp [assocFind, List.find?, hp]]
        rw [show (assocFind (p :: rest) e).isSome = (assocFind rest e).isSome by
          simp [assocFind, List.find?, hp]] at h
        exact ih h

/-- A vector is nonzero exactly when one of its components is. -/
lemma vec3_ne_zero_iff (v : Vec3 ℝ) :
    v ≠ Vec3.zero ↔ v.x ≠ 0 ∨ v.y ≠ 0 ∨ v.z ≠ 0 := by
  cases v with
  | mk a b c =>
      simp only [Vec3.zero, ne_eq, Vec3.mk.injEq]
      tauto

/-- A nonzero vector has positive squared norm. -/
lemma normSq_pos_of_ne_zero (v : Vec3 ℝ) (h : v ≠ Vec3.zero) :
    0 < v.x ^ 2 + v.y ^ 2 + v.z ^ 2 := by
  rcases (vec3_ne_zero_iff v).mp h with hx | hy | hz
  · have h1 : 0 < v.x ^ 2 := by
      rcases lt_or_gt_of_ne hx with hl | hl <;> nlinarith
    nlinarith [sq_nonneg v.y, sq_nonneg v.z]
  · have h1 : 0 < v.y ^ 2 := by
      rcases lt_or_gt_of_ne hy with hl | hl <;> nlinarith
    nlinarith [sq_nonneg v.x, sq_nonneg v.z]
  · have h1 : 0 < v.z ^ 2 := by
      rcases lt_or_gt_of_ne hz with hl | hl <;> nlinarith
    nlinarith [sq_nonneg v.x, sq_nonneg v.y]

/-- Adding a nonzero vector moves the point. -/
lemma add_ne_self_of_ne_zero (t mv : Vec3 ℝ) (h : mv ≠ Vec3.zero) :
    t.add mv ≠ t := by
  intro heq
  apply h
  have hx := congrArg Vec3.x heq
  have hy := congrArg Vec3.y heq
  have hz := congrArg Vec3.z heq
  simp only [Vec3.add] at hx hy hz
  cases mv with
  | mk a b c =>
      cases t with
      | mk p q r =>
          simp only at hx hy hz
          simp only [Vec3.zero, Vec3.mk.injEq]
          refine ⟨by linarith, by linarith, by linarith⟩

/-- Scaling a nonzero vector by a positive scalar keeps it nonzero, for
the normalize-then-scale move vector. -/
lemma possession_move_ne_zero (m : Vec3 ℝ) (hm : m ≠ Vec3.zero) (c : ℝ)
    (hc : 0 < c) : (vnormalize m).smul c ≠ Vec3.zero := by
  have hS : 0 < m.x ^ 2 + m.y ^ 2 + m.z ^ 2 := normSq_pos_of_ne_zero m hm
  have hs : 0 < (Real.sqrt (m.x ^ 2 + m.y ^ 2 + m.z ^ 2))⁻¹ :=
    inv_pos.mpr (Real.sqrt_pos.mpr hS)
  rcases (vec3_ne_zero_iff m).mp hm with hx | hy | hz
  · exact (vec3_ne_zero_iff _).mpr (Or.inl
      (mul_ne_zero (mul_ne_zero hx (ne_of_gt hs)) (ne_of_gt hc)))
  · exact (vec3_ne_zero_iff _).mpr (Or.inr (Or.inl
      (mul_ne_zero (mul_ne_zero hy (ne_of_gt hs)) (ne_of_gt hc))))
  · exact (vec3_ne_zero_iff _).mpr (Or.inr (Or.inr
      (mul_ne_zero (mul_ne_zero hz (ne_of_gt hs)) (ne_of_gt hc))))

/-- C6.  While possession mode is active, none of the four free-camera
systems touches the camera transform, and WASD input moves the fox
through `fox_possession_movement` instead: with fox, camera and a nonzero
movement direction resolved, the fox's translation advances by
`normalize(movement) * speed * dt`, a genuine move when `dt > 0`. -/
theorem possession_mode_controls :
    (∀ (ev : List ℝ) (cam : Option Transform3) (st : CameraSettings)
        (pm : PossessionMode), pm.is_active = true →
      camera_zoom ev cam st pm = cam) ∧
    (∀ (lp wo : Bool) (cur : Option (ℝ × ℝ)) (cam : Option Transform3)
        (drag : MouseDragState) (st : CameraSettings) (mm : FoxMoveMode)
        (pm : PossessionMode), pm.is_active = true →
      (camera_drag_rotation lp wo cur cam drag st mm pm).1 = cam) ∧
    (∀ (ar : ArrowKeys) (cam : Option Transform3) (st : CameraSettings)
        (pm : PossessionMode), pm.is_active = true →
      camera_keyboard_rotation ar cam st pm = cam) ∧
    (∀ (ks : WasdKeys) (cam : Option Transform3) (st : CameraSettings)
        (pm : PossessionMode), pm.is_active = true →
      camera_keyboard_pan ks cam st pm = cam) ∧
    (∀ (keys : KeyState) (pm : PossessionMode) (foxes : List (Entity × Transform3))
        (fe : Entity) (ftr ctr : Transform3) (elapsed dt : ℝ)
        (dash : DashInputState),
      pm.is_active = true →
      pm.fox_entity = some fe →
      assocFind foxes fe = some ftr →
      possessionMovementDir keys.pressed ctr ≠ Vec3.zero →
      0 < dt →
        (assocFind (fox_possession_movement keys pm foxes (some ctr) elapsed dt dash).1
            fe).map Transform3.translation
          = some (ftr.translation.add
              ((vnormalize (possessionMovementDir keys.pressed ctr)).smul
                ((if (possessionDashUpdate keys elapsed dash).is_dashing then (50 : ℝ) else 15)
                  * dt))) ∧
        ftr.translation.add
            ((vnormalize (possessionMovementDir keys.pressed ctr)).smul
              ((if (possessionDashUpdate keys elapsed dash).is_dashing then (50 : ℝ) else 15)
                * dt))
          ≠ ftr.translation) := by
  refine ⟨?_, ?_, ?_, ?_, ?_⟩
  · intro ev cam st pm hactive
    unfold camera_zoom
    rw [if_pos (by rw [hactive])]
  · intro lp wo cur cam drag st mm pm hactive
    unfold camera_drag_rotation
    rw [if_pos (by rw [hactive]; simp)]
  · intro ar cam st pm hactive
    unfold camera_keyboard_rotation
    rw [if_pos (by rw [hactive])]
  · intro ks cam st pm hactive
    unfold camera_keyboard_pan
    rw [if_pos (by rw [hactive])]
  · intro keys pm foxes fe ftr ctr elapsed dt dash hactive hfe hftr hm hdt
    have hc : 0 < (if (possessionDashUpdate keys elapsed dash).is_dashing
        then (50 : ℝ) else 15) * dt := by
      apply mul_pos _ hdt
      split_ifs <;> norm_num
    have hres : fox_possession_movement keys pm foxes (some ctr) elapsed dt dash
        = (assocSet foxes fe
            { ftr with
                translation := (ftr.translation.add
                  ((vnormalize (possessionMovementDir keys.pressed ctr)).smul
                    ((if (possessionDashUpdate keys elapsed dash).is_dashing
                      then (50 : ℝ) else 15) * dt))),
                rotation :=
                  ⟨Complex.arg
                      ⟨-((vnormalize (possessionMovementDir keys.pressed ctr)).smul
                          ((if (possessionDashUpdate keys elapsed dash).is_dashing
                            then (50 : ℝ) else 15) * dt)).z,
                        -((vnormalize (possessionMovementDir keys.pressed ctr)).smul
                          ((if (possessionDashUpdate keys elapsed dash).is_dashing
                            then (50 : ℝ) else 15) * dt)).x⟩ + Real.pi, 0, 0⟩ },
          possessionDashUpdate keys elapsed dash) := by
      unfold fox_possession_movement
      rw [if_neg (by rw [hactive]; simp)]
      simp only [hfe, hftr]
      rw [if_pos hm]
    rw [hres]
    constructor
    · rw [assocFind_assocSet foxes fe _ (by rw [hftr]; rfl)]
      rfl
    · exact add_ne_self_of_ne_zero _ _
        (possession_move_ne_zero _ hm _ hc)

/-- Witness camera/fox transform at the origin with identity rotation. -/
noncomputable def c6transform : Transform3 := ⟨⟨0, 0, 0⟩, ⟨0, 0, 0⟩⟩

/-- Witness possession mode: active, holding fox `1`. -/
noncomputable def c6possession : PossessionMode := ⟨true, some 1, Vec3.zero, none⟩

/-- Witness key state: W held, nothing just pressed. -/
def c6keys : KeyState := ⟨⟨true, false, false, false⟩, ⟨false, false, false, false⟩⟩

/-- Witness dash state (the `Default` values). -/
noncomputable def c6dash : DashInputState := ⟨false, none, none, 3 / 10⟩

/-- With the identity camera rotation, holding W moves straight along
`-Z`. -/
lemma c6dir_eval :
    possessionMovementDir c6keys.pressed c6transform = ⟨0, 0, -1⟩ := by
  have hfwd : c6transform.forward = ⟨0, 0, -1⟩ := by
    norm_num [Transform3.forward, c6transform, Real.sin_zero, Real.cos_zero]
  have hxz : normalizeOrZero ⟨0, 0, -1⟩ = (⟨0, 0, -1⟩ : Vec3 ℝ) := by
    rw [normalizeOrZero, if_neg (by simp [Vec3.zero])]
    norm_num [vnormalize, Vec3.smul, Real.sqrt_one]
  unfold possessionMovementDir
  rw [hfwd]
  simp only [c6keys, if_true, if_false, Bool.false_eq_true]
  rw [hxz]
  norm_num [Vec3.add, Vec3.zero]

/-- Witness for C6: at a concrete active-possession state the four camera
systems leave the camera untouched, and a held W key advances the fox. -/
theorem possession_mode_controls_witness :
    camera_zoom [1] (some c6transform) CameraSettings.default c6possession
      = some c6transform ∧
    (camera_drag_rotation true true (some (3, 4)) (some c6transform) ⟨false, none⟩
        CameraSettings.default ⟨false, false, none⟩ c6possession).1
      = some c6transform ∧
    camera_keyboard_rotation ⟨true, false, true, false⟩ (some c6transform)
        CameraSettings.default c6possession
      = some c6transform ∧
    camera_keyboard_pan ⟨true, false, false, false⟩ (some c6transform)
        CameraSettings.default c6possession
      = some c6transform ∧
    (assocFind (fox_possession_movement c6keys c6possession [(1, c6transform)]
          (some c6transform) 0 1 c6dash).1 1).map Transform3.translation
      = some (c6transform.translation.add
          ((vnormalize (possessionMovementDir c6keys.pressed c6transform)).smul
            ((if (possessionDashUpdate c6keys 0 c6dash).is_dashing then (50 : ℝ) else 15)
              * 1))) ∧
    c6transform.translation.add
        ((vnormalize (possessionMovementDir c6keys.pressed c6transform)).smul
          ((if (possessionDashUpdate c6keys 0 c6dash).is_dashing then (50 : ℝ) else 15)
            * 1))
      ≠ c6transform.translation := by
  have hm : possessionMovementDir c6keys.pressed c6transform ≠ Vec3.zero := by
    rw [c6dir_eval]
    simp [Vec3.zero]
  have h5 := possession_mode_controls.2.2.2.2 c6keys c6possession [(1, c6transform)]
    1 c6transform c6transform 0 1 c6dash rfl rfl (by rfl) hm (by norm_num)
  exact ⟨possession_mode_controls.1 [1] (some c6transform) CameraSettings.default
      c6possession rfl,
    possession_mode_controls.2.1 true true (some (3, 4)) (some c6transform)
      ⟨false, none⟩ CameraSettings.default ⟨false, false, none⟩ c6possession rfl,
    possession_mode_controls.2.2.1 ⟨true, false, true, false⟩ (some c6transform)
      CameraSettings.default c6possession rfl,
    possession_mode_controls.2.2.2.1 ⟨true, false, false, false⟩ (some c6transform)
      CameraSettings.default c6possession rfl,
    h5.1, h5.2⟩

/-! ## C10: every rotation system clamps the pitch -/

/-- `clamp` keeps its output inside `[lo, hi]`. -/
lemma fclamp_bounds (x lo hi : ℝ) (h : lo ≤ hi) :
    lo ≤ fclamp x lo hi ∧ fclamp x lo hi ≤ hi :=
  ⟨le_max_left _ _, max_le h (min_le_right _ _)⟩

/-- C10.  `CAMERA_PITCH_LIMIT` is 1.5 radians, and each of
`camera_drag_rotation`, `camera_keyboard_rotation` and
`possession_camera_rotation` keeps the camera pitch inside
`[-CAMERA_PITCH_LIMIT, CAMERA_PITCH_LIMIT]`: whenever the incoming
camera's pitch is inside that interval, so is the outgoing camera's, for
every mouse delta or key input. -/
theorem camera_pitch_clamped :
    CAMERA_PITCH_LIMIT = 3 / 2 ∧
    (∀ (lp wo : Bool) (cur : Option (ℝ × ℝ)) (drag : MouseDragState)
        (st : CameraSettings) (mm : FoxMoveMode) (pm : PossessionMode)
        (c c' : Transform3),
      -CAMERA_PITCH_LIMIT ≤ c.rotation.pitch → c.rotation.pitch ≤ CAMERA_PITCH_LIMIT →
      (camera_drag_rotation lp wo cur (some c) drag st mm pm).1 = some c' →
        -CAMERA_PITCH_LIMIT ≤ c'.rotation.pitch ∧
          c'.rotation.pitch ≤ CAMERA_PITCH_LIMIT) ∧
    (∀ (ar : ArrowKeys) (st : CameraSettings) (pm : PossessionMode)
        (c c' : Transform3),
      -CAMERA_PITCH_LIMIT ≤ c.rotation.pitch → c.rotation.pitch ≤ CAMERA_PITCH_LIMIT →
      camera_keyboard_rotation ar (some c) st pm = some c' →
        -CAMERA_PITCH_LIMIT ≤ c'.rotation.pitch ∧
          c'.rotation.pitch ≤ CAMERA_PITCH_LIMIT) ∧
    (∀ (lp wo : Bool) (cur : Option (ℝ × ℝ)) (drag : MouseDragState)
        (st : CameraSettings) (pm : PossessionMode) (c c' : Transform3),
      -CAMERA_PITCH_LIMIT ≤ c.rotation.pitch → c.rotation.pitch ≤ CAMERA_PITCH_LIMIT →
      (possession_camera_rotation lp wo cur (some c) drag st pm).1 = some c' →
        -CAMERA_PITCH_LIMIT ≤ c'.rotation.pitch ∧
          c'.rotation.pitch ≤ CAMERA_PITCH_LIMIT) := by
  have hlim : -CAMERA_PITCH_LIMIT ≤ CAMERA_PITCH_LIMIT := by
    norm_num [CAMERA_PITCH_LIMIT]
  refine ⟨rfl, ?_, ?_, ?_⟩
  · intro lp wo cur drag st mm pm c c' hlo hhi hres
    unfold camera_drag_rotation at hres
    split_ifs at hres with h1 h2 h3
    · injection hres with h
      subst h
      exact ⟨hlo, hhi⟩
    · injection hres with h
      subst h
      exact ⟨hlo, hhi⟩
    · rcases cur with _ | cpos
      · simp only at hres
        injection hres with h
        subst h
        exact ⟨hlo, hhi⟩
      · simp only at hres
        rcases hdp : drag.last_position with _ | lpos
        · rw [hdp] at hres
          simp only at hres
          injection hres with h
          subst h
          exact ⟨hlo, hhi⟩
        · rw [hdp] at hres
          simp only at hres
          injection hres with h
          subst h
          exact fclamp_bounds _ _ _ hlim
    · rcases cur with _ | cpos
      · simp only at hres
        injection hres with h
        subst h
        exact ⟨hlo, hhi⟩
      · simp only at hres
        injection hres with h
        subst h
        exact ⟨hlo, hhi⟩
  · intro ar st pm c c' hlo hhi hres
    unfold camera_keyboard_rotation at hres
    by_cases h1 : pm.is_active = true
    · rw [if_pos h1] at hres
      injection hres with h
      subst h
      exact ⟨hlo, hhi⟩
    · rw [if_neg h1] at hres
      simp only at hres
      rcases ite_eq_iff.mp hres with ⟨hP, hA⟩ | ⟨hP, hB⟩
      · injection hA with h
        subst h
        exact fclamp_bounds _ _ _ hlim
      · injection hB with h
        subst h
        exact ⟨hlo, hhi⟩
  · intro lp wo cur drag st pm c c' hlo hhi hres
    unfold possession_camera_rotation at hres
    rcases cur with _ | cpos <;>
      rcases hdp : drag.last_position with _ | lpos <;>
        rw [hdp] at hres <;>
        (try simp only at hres) <;>
        split_ifs at hres <;>
        (try simp only at hres) <;>
        first
          | (injection hres with h; subst h; exact ⟨hlo, hhi⟩)
          | (injection hres with h; subst h; exact fclamp_bounds _ _ _ hlim)

/-- Witness camera for C10: identity rotation (pitch 0). -/
noncomputable def c10cam : Transform3 := ⟨⟨0, 0, 0⟩, ⟨0, 0, 0⟩⟩

/-- Witness possession mode for C10: inactive (the free-camera case). -/
noncomputable def c10pmOff : PossessionMode := ⟨false, none, Vec3.zero, none⟩

/-- Witness for C10: at a concrete in-bounds camera each rotation system
returns an in-bounds camera. -/
theorem camera_pitch_clamped_witness :
    (camera_drag_rotation false true (some (0, 0)) (some c10cam) ⟨false, none⟩
        CameraSettings.default ⟨false, false, none⟩ c10pmOff).1 = some c10cam ∧
    camera_keyboard_rotation ⟨false, false, false, false⟩ (some c10cam)
        CameraSettings.default c10pmOff = some c10cam ∧
    (possession_camera_rotation false true (some (0, 0)) (some c10cam) ⟨false, none⟩
        CameraSettings.default c10pmOff).1 = some c10cam ∧
    (-CAMERA_PITCH_LIMIT ≤ c10cam.rotation.pitch ∧
      c10cam.rotation.pitch ≤ CAMERA_PITCH_LIMIT) ∧
    (-CAMERA_PITCH_LIMIT ≤ c10cam.rotation.pitch ∧
      c10cam.rotation.pitch ≤ CAMERA_PITCH_LIMIT) ∧
    (-CAMERA_PITCH_LIMIT ≤ c10cam.rotation.pitch ∧
      c10cam.rotation.pitch ≤ CAMERA_PITCH_LIMIT) := by
  have hlo : -CAMERA_PITCH_LIMIT ≤ c10cam.rotation.pitch := by
    norm_num [CAMERA_PITCH_LIMIT, c10cam]
  have hhi : c10cam.rotation.pitch ≤ CAMERA_PITCH_LIMIT := by
    norm_num [CAMERA_PITCH_LIMIT, c10cam]
  have hd : (camera_drag_rotation false true (some (0, 0)) (some c10cam) ⟨false, none⟩
      CameraSettings.default ⟨false, false, none⟩ c10pmOff).1 = some c10cam := rfl
  have hk : camera_keyboard_rotation ⟨false, false, false, false⟩ (some c10cam)
      CameraSettings.default c10pmOff = some c10cam := by
    unfold camera_keyboard_rotation
    rw [if_neg (by simp [c10pmOff])]
    simp only []
    rw [if_neg (by norm_num)]
  have hp : (possession_camera_rotation false true (some (0, 0)) (some c10cam)
      ⟨false, none⟩ CameraSettings.default c10pmOff).1 = some c10cam := rfl
  exact ⟨hd, hk, hp,
    camera_pitch_clamped.2.1 false true (some (0, 0)) ⟨false, none⟩
      CameraSettings.default ⟨false, false, none⟩ c10pmOff c10cam c10cam hlo hhi hd,
    camera_pitch_clamped.2.2.1 ⟨false, false, false, false⟩ CameraSettings.default
      c10pmOff c10cam c10cam hlo hhi hk,
    camera_pitch_clamped.2.2.2 false true (some (0, 0)) ⟨false, none⟩
      CameraSettings.default c10pmOff c10cam c10cam hlo hhi hp⟩
